import Mathlib

/-!
Verification of the swift repository's Configuration Resolution Engine and
Conversation Context-Window Manager against its specification.

Source files embedded:
- `src/swift/llm/utils/utils.py` (`limit_history_length`, `_get_labels_str`)
- `src/swift/llm/utils/argument.py` (`select_dtype`, `select_bnb`,
  `handle_compatibility`, `handle_path`, `set_model_type`,
  `load_from_ckpt_dir`, parts of `SftArguments.__post_init__`)
-/

namespace Swift

/-! ## Context-Window Manager (`src/swift/llm/utils/utils.py`) -/

/-- Modelled from the spec: `swift.utils.upper_bound` is part of this repository
but not under `src/`.  The spec describes it as a monotonic-predicate binary
search over `[lo, hi]` returning the greatest `k` such that `cond k` holds
(returning `lo` when the predicate fails everywhere above `lo`; `cond lo` is
never evaluated), with the predicate evaluated `O(log n)` times.  The loop
`while lo < hi: mid = (lo+hi+1)//2; if cond(mid): lo = mid else: hi = mid-1`
is written here with an explicit fuel `hi - lo`, which bounds the number of
iterations, so that the function reduces by evaluation. -/
def ub_go (cond : Nat → Bool) : Nat → Nat → Nat → Nat
  | 0, lo, _ => lo
  | fuel + 1, lo, hi =>
    if lo < hi then
      if cond ((lo + hi + 1) / 2) then ub_go cond fuel ((lo + hi + 1) / 2) hi
      else ub_go cond fuel lo ((lo + hi + 1) / 2 - 1)
    else lo

/-- Modelled from the spec: entry point of the binary search (see `ub_go`). -/
def upper_bound (lo hi : Nat) (cond : Nat → Bool) : Nat :=
  ub_go cond (hi - lo) lo hi

/-- The inner closure `compute_token_length` of `limit_history_length`
(utils.py:422-426): the token length of encoding `{query, history[-hl:]}`.
The template, the query and the call to `template.encode` are abstracted into
`encLen`, which maps a candidate suffix of the history to its encoded token
length; `history[-hl:]` for `1 ≤ hl ≤ len(history)` is
`history.drop (history.length - hl)`. -/
def compute_token_length {α : Type} (encLen : List α → Nat) (history : List α)
    (history_length : Nat) : Nat :=
  encLen (history.drop (history.length - history_length))

/-- `limit_history_length` (utils.py:416-432): binary-search the largest
suffix of `history` whose encoding fits in `max_length`; return the dropped
prefix (`old_history`) and the kept suffix. -/
def limit_history_length {α : Type} (encLen : List α → Nat) (history : List α)
    (max_length : Nat) : List α × List α :=
  let history_length := upper_bound 0 history.length
    (fun mid => decide (compute_token_length encLen history mid ≤ max_length))
  (history.take (history.length - history_length),
   history.drop (history.length - history_length))

/-! ## Label-Run Encoder (`_get_labels_str`, utils.py:250-272) -/

/-- Loop state of `_get_labels_str`: the accumulated string `labels_str` and
the indices `s` (start of the current masked run) and `e` (start of the
current non-masked run). -/
structure LabelsLoopSt where
  str : String
  s : Nat
  e : Nat

/-- The literal marker rendered for a masked run of length `n`. -/
def labelsMarker (n : Nat) : String := "[-100 * " ++ toString n ++ "]"

/-- One iteration of the loop body of `_get_labels_str` (utils.py:262-267)
for `1 ≤ i < labels.length`.  The first branch assigns `s = i` and then
appends `tokenizer.decode(labels[e:s])`; the second assigns `e = i` and then
appends the marker for the run `[s, e)`.  `tokenizer.decode` is abstracted
into `decode`; `labels[e:i]` is `(labels.drop e).take (i - e)`. -/
def labelsStep (decode : List Int → String) (labels : List Int)
    (st : LabelsLoopSt) (i : Nat) : LabelsLoopSt :=
  let st1 :=
    if labels.getD i 0 = -100 ∧ labels.getD (i - 1) 0 ≠ -100 then
      { st with s := i, str := st.str ++ decode ((labels.drop st.e).take (i - st.e)) }
    else st
  if labels.getD i 0 ≠ -100 ∧ labels.getD (i - 1) 0 = -100 then
    { st1 with e := i, str := st1.str ++ labelsMarker (i - st1.s) }
  else st1

/-- The code after the loop of `_get_labels_str` (utils.py:268-272): close
the final run, masked (`[-100 * (len - s)]`) or not (`decode(labels[e:])`). -/
def labelsFin (decode : List Int → String) (labels : List Int)
    (st : LabelsLoopSt) : String :=
  if labels.getD (labels.length - 1) 0 = -100 then
    st.str ++ labelsMarker (labels.length - st.s)
  else st.str ++ decode (labels.drop st.e)

/-- `_get_labels_str` (utils.py:250-272).  The `i = 0` iteration of the
source loop assigns `0` to `s` (masked first element) or to `e` (unmasked
first element) and leaves the other variable unbound; since every later use
of `s` and of `e` is preceded by an assignment on its branch, starting both
at `0` is exact. -/
def getLabelsStr (decode : List Int → String) (labels : List Int) : String :=
  if labels.length = 0 then ""
  else
    labelsFin decode labels
      ((List.range' 1 (labels.length - 1)).foldl (labelsStep decode labels) ⟨"", 0, 0⟩)

/-- Whether a label id is the `-100` sentinel. -/
def isMaskedLabel (x : Int) : Bool := x = -100

/-- Modelled from the spec's words, as the reference for the refinement claim
about `_get_labels_str`: split the label sequence into maximal contiguous
runs of masked / non-masked ids and render, in order, each masked run of
length N as the marker `[-100 * N]` and each non-masked run as its decoded
text; the empty input renders as the empty string. -/
def labelRuns (decode : List Int → String) : List Int → String
  | [] => ""
  | x :: xs =>
    (if isMaskedLabel x then
        labelsMarker (x :: xs.takeWhile (fun y => isMaskedLabel y = isMaskedLabel x)).length
      else decode (x :: xs.takeWhile (fun y => isMaskedLabel y = isMaskedLabel x)))
      ++ labelRuns decode (xs.dropWhile (fun y => isMaskedLabel y = isMaskedLabel x))
termination_by l => l.length
decreasing_by
  simp only [List.length_cons]
  have := (xs.dropWhile_sublist (fun y => isMaskedLabel y = isMaskedLabel x)).length_le
  omega

/-! ## Configuration Resolution Engine (`src/swift/llm/utils/argument.py`) -/

/-- The three torch floating point dtypes the precision resolvers produce. -/
inductive TorchDtype where
  | float16
  | bfloat16
  | float32
deriving DecidableEq, Repr

/-- The Python exceptions the embedded resolution functions can raise.  The
spec's error taxonomy names them abstractly; the comments give the concrete
Python exception class raised by the source. -/
inductive ResolutionErr where
  /-- Python `AssertionError` (a failed `assert`), with its message. -/
  | assertionFailed (msg : String)
  /-- Python `ValueError`, with its message. -/
  | valueErr (msg : String)
  /-- Python `KeyError` from a failed dict lookup. -/
  | keyErr
  /-- Python `FileNotFoundError`, with its message. -/
  | fileNotFound (msg : String)
  /-- `transformers.utils.versions.require_version` failure, naming the
  unmet requirement. -/
  | dependencyVersion (req : String)
deriving DecidableEq, Repr

/-- Modelled from the spec: `dtype_mapping` lives in
`swift/llm/utils/model.py`, which is not under `src/`; per the spec the
resolvers work with "exactly three concrete numeric precisions", named
`fp16` / `bf16` / `fp32`.  Forward direction: torch dtype to name. -/
def dtype_mapping : TorchDtype → String
  | .float16 => "fp16"
  | .bfloat16 => "bf16"
  | .float32 => "fp32"

/-- `dtype_mapping_reversed` (argument.py:368): name to torch dtype; a
missing name is a Python `KeyError` at the lookup site, hence `Option`. -/
def dtype_mapping_reversed (s : String) : Option TorchDtype :=
  if s = "fp16" then some .float16
  else if s = "bf16" then some .bfloat16
  else if s = "fp32" then some .float32
  else none

/-- Python's substring test `sub in s`. -/
def strContains (s sub : String) : Bool := decide (sub.data <:+: s.data)

/-- The slice of `SftArguments` read or written by `select_dtype`
(argument.py:371-398) and by the `sft_type` dispatch block of
`SftArguments.__post_init__` (argument.py:180-196).  `model_type` has been
resolved to a string by `set_model_type` before either runs. -/
structure SftArgsSlice where
  dtype : String
  model_type : String
  sft_type : String
  quantization_bit : Int
  learning_rate : Option ℚ
  only_save_model : Option Bool
  deepspeed_config_path : Option String
deriving DecidableEq, Repr

/-- `select_dtype` (argument.py:371-398) applied to an `SftArguments`
(so `isinstance(args, SftArguments)` is true).  External collaborators are
parameters: `bf16Supported` is `torch.cuda.is_bf16_supported()` and
`modelTorchDtype` is `MODEL_MAPPING[args.model_type]['torch_dtype']`.
Returns `(torch_dtype, fp16, bf16)`, the mutated arguments, and the list of
emitted warning messages.  The `assert torch_dtype in {...}` of line 385 is
unfailable after a successful lookup and the failed lookup itself is a
Python `KeyError`. -/
def select_dtype (bf16Supported : Bool) (modelTorchDtype : Option TorchDtype)
    (args : SftArgsSlice) :
    Except ResolutionErr (TorchDtype × Bool × Bool × SftArgsSlice × List String) :=
  let args := if args.dtype = "AUTO" ∧ ¬ bf16Supported then
    { args with dtype := "fp16" } else args
  let args := if args.dtype = "AUTO"
      ∧ (strContains args.model_type "int4" ∨ strContains args.model_type "int8") then
    match modelTorchDtype with
    | some d => { args with dtype := dtype_mapping d }
    | none => args
  else args
  let args := if args.dtype = "AUTO" then { args with dtype := "bf16" } else args
  match dtype_mapping_reversed args.dtype with
  | none => .error .keyErr
  | some torch_dtype =>
    if torch_dtype = .float16 then
      if args.sft_type = "full" then
        .ok (.float32, true, false, args, ["Setting torch_dtype: torch.float32"])
      else .ok (.float16, true, false, args, [])
    else if torch_dtype = .bfloat16 then
      if ¬ bf16Supported then .ok (.bfloat16, false, true, args, ["support_bf16: False"])
      else .ok (.bfloat16, false, true, args, [])
    else .ok (.float32, false, false, args, [])

/-- The `sft_type` dispatch block of `SftArguments.__post_init__`
(argument.py:180-196), which runs after `select_dtype` (line 166): fills the
`learning_rate` / `only_save_model` defaults for the adapter types and, for
full-parameter training, runs `assert quantization_bit == 0` and
`assert dtype != 'fp16'`. -/
def sft_type_dispatch (args : SftArgsSlice) : Except ResolutionErr SftArgsSlice :=
  if args.sft_type = "lora" ∨ args.sft_type = "longlora" ∨ args.sft_type = "qalora" then
    let args := if args.learning_rate = none then
      { args with learning_rate := some (1 / 10000) } else args
    let args := if args.only_save_model = none then
      (if args.deepspeed_config_path = none then { args with only_save_model := some false }
       else { args with only_save_model := some true })
    else args
    .ok args
  else if args.sft_type = "full" then
    if args.quantization_bit ≠ 0 then .error (.assertionFailed "not supported")
    else if args.dtype = "fp16" then .error (.assertionFailed "please use bf16 or fp32")
    else
      let args := if args.learning_rate = none then
        { args with learning_rate := some (2 / 100000) } else args
      let args := if args.only_save_model = none then
        { args with only_save_model := some true } else args
      .ok args
  else .error (.valueErr ("sft_type: " ++ args.sft_type))

/-- The precision-relevant fragment of `SftArguments.__post_init__`: line 166
(`self.torch_dtype, self.fp16, self.bf16 = select_dtype(self)`) followed by
the `sft_type` dispatch block (lines 180-196).  The statements in between
(distributed setup, `output_dir` handling) neither read nor write the fields
of the slice. -/
def sft_post_init_precision (bf16Supported : Bool) (modelTorchDtype : Option TorchDtype)
    (args : SftArgsSlice) :
    Except ResolutionErr (TorchDtype × Bool × Bool × SftArgsSlice × List String) :=
  match select_dtype bf16Supported modelTorchDtype args with
  | .error e => .error e
  | .ok (torch_dtype, fp16, bf16, args1, warns) =>
    match sft_type_dispatch args1 with
    | .error e => .error e
    | .ok args2 => .ok (torch_dtype, fp16, bf16, args2, warns)

/-- The slice of the arguments read or written by `select_bnb`
(argument.py:401-420); `dtype` has been resolved by `select_dtype` before it
runs. -/
structure BnbArgsSlice where
  dtype : String
  bnb_4bit_comp_dtype : String
  quantization_bit : Int
deriving DecidableEq, Repr

/-- `select_bnb` (argument.py:401-420).  `require_version('bitsandbytes')`
raises when the package is missing, abstracted into `bnbAvailable`; the
`assert` of line 408 is unfailable after a successful lookup.  Returns the
quantization compute dtype, the `load_in_4bit` / `load_in_8bit` flags and
the mutated arguments.  Note the final `else` branch: any quantization bit
other than 4 and 8 — legal (0) or not (e.g. 3) — selects no quantization
and raises nothing. -/
def select_bnb (bnbAvailable : Bool) (args : BnbArgsSlice) :
    Except ResolutionErr (TorchDtype × Bool × Bool × BnbArgsSlice) :=
  let args := if args.bnb_4bit_comp_dtype = "AUTO" then
    { args with bnb_4bit_comp_dtype := args.dtype } else args
  match dtype_mapping_reversed args.bnb_4bit_comp_dtype with
  | none => .error .keyErr
  | some bnb_4bit_compute_dtype =>
    if args.quantization_bit = 4 then
      if bnbAvailable then .ok (bnb_4bit_compute_dtype, true, false, args)
      else .error (.dependencyVersion "bitsandbytes")
    else if args.quantization_bit = 8 then
      if bnbAvailable then .ok (bnb_4bit_compute_dtype, false, true, args)
      else .error (.dependencyVersion "bitsandbytes")
    else .ok (bnb_4bit_compute_dtype, false, false, args)

/-- A `MODEL_MAPPING` registry entry, restricted to the fields
`set_model_type` reads or writes (argument.py:442-472). -/
structure ModelInfo where
  model_id_or_path : String
  revision : String
  requires : List String
deriving DecidableEq, Repr

/-- The slice of the arguments read or written by `set_model_type`
(argument.py:442-472). -/
structure ModelSpecArgs where
  model_type : Option String
  model_id_or_path : Option String
  model_revision : Option String
deriving DecidableEq, Repr

/-- Python dict lookup in `MODEL_MAPPING`, embedded as an insertion-ordered
association list with unique keys. -/
def lookupModel (mapping : List (String × ModelInfo)) (k : String) : Option ModelInfo :=
  (mapping.find? (fun p => p.1 = k)).map (fun p => p.2)

/-- The reverse mapping `{v['model_id_or_path'].lower(): k for k, v in
MODEL_MAPPING.items()}` (argument.py:445-448): on duplicate lowered paths
the later entry wins, as in a Python dict comprehension. -/
def model_mapping_reversed_lookup (mapping : List (String × ModelInfo))
    (s : String) : Option String :=
  ((mapping.filter (fun p => p.2.model_id_or_path.toLower = s)).getLast?).map (fun p => p.1)

/-- `set_model_type` (argument.py:442-472).  External collaborators are
parameters: `mapping` is `MODEL_MAPPING`, `pathExists` is `os.path.exists`,
`requireOk r` is whether `require_version(r)` succeeds.  Returns the mutated
arguments together with the (possibly revision-updated) registry.  The bare
`assert` of line 443 — at most one of `model_type` / `model_id_or_path` —
is what the spec's taxonomy calls `AmbiguousModelSpecError`. -/
def set_model_type (mapping : List (String × ModelInfo)) (pathExists : String → Bool)
    (requireOk : String → Bool) (args : ModelSpecArgs) :
    Except ResolutionErr (ModelSpecArgs × List (String × ModelInfo)) :=
  if args.model_type ≠ none ∧ args.model_id_or_path ≠ none then
    .error (.assertionFailed "")
  else
    let step1 : Except ResolutionErr ModelSpecArgs :=
      match args.model_id_or_path with
      | some model_id_or_path =>
        match model_mapping_reversed_lookup mapping model_id_or_path.toLower with
        | none =>
          .error (.valueErr
            (if pathExists model_id_or_path then
              "`model_id_or_path`: '" ++ model_id_or_path ++ "' is not registered."
                ++ " Please use `model_cache_dir` to specify the local cache path for the model."
             else "`model_id_or_path`: '" ++ model_id_or_path ++ "' is not registered."))
        | some k => .ok { args with model_type := some k }
      | none => .ok args
    match step1 with
    | .error e => .error e
    | .ok args =>
      match args.model_type with
      | none => .error (.valueErr "please setting `--model_type xxx` or `--model_id_or_path xxx`")
      | some mt =>
        match lookupModel mapping mt with
        | none => .error (.valueErr ("model_type: " ++ mt ++ " is not registered."))
        | some model_info =>
          let amr : ModelSpecArgs × ModelInfo × List (String × ModelInfo) :=
            match args.model_revision with
            | none => ({ args with model_revision := some model_info.revision },
                model_info, mapping)
            | some rev => (args, { model_info with revision := rev },
                mapping.map (fun p => if p.1 = mt then (p.1, { p.2 with revision := rev }) else p))
          let args := { amr.1 with model_id_or_path := some amr.2.1.model_id_or_path }
          match amr.2.1.requires.find? (fun r => ¬ requireOk r) with
          | some r => .error (.dependencyVersion r)
          | none => .ok (args, amr.2.2)

/-- The allow-listed keys of `load_from_ckpt_dir` (argument.py:555-566). -/
inductive CkptKey where
  | model_type
  | model_id_or_path
  | model_revision
  | model_cache_dir
  | sft_type
  | template_type
  | dtype
  | system
  | quantization_bit
  | bnb_4bit_comp_dtype
  | bnb_4bit_quant_type
  | bnb_4bit_use_double_quant
  | dataset
  | dataset_seed
  | dataset_test_ratio
  | check_dataset_strategy
  | custom_train_dataset_path
  | custom_val_dataset_path
deriving DecidableEq, Repr

/-- The slice of `InferArguments` touched by `load_from_ckpt_dir`
(argument.py:548-573): one field per allow-listed key, plus `eval_human`.
`setattr(args, key, sft_args.get(key))` can overwrite any of these fields
with Python `None`, whatever the dataclass declares, so every field is an
`Option V` over an abstract JSON-value type `V`, `none` standing for `None`. -/
structure InferArgsCk (V : Type) where
  model_type : Option V
  model_id_or_path : Option V
  model_revision : Option V
  model_cache_dir : Option V
  sft_type : Option V
  template_type : Option V
  dtype : Option V
  system : Option V
  quantization_bit : Option V
  bnb_4bit_comp_dtype : Option V
  bnb_4bit_quant_type : Option V
  bnb_4bit_use_double_quant : Option V
  dataset : Option V
  dataset_seed : Option V
  dataset_test_ratio : Option V
  check_dataset_strategy : Option V
  custom_train_dataset_path : Option V
  custom_val_dataset_path : Option V
  eval_human : Bool

/-- Python `getattr(args, key)` for the allow-listed keys. -/
def getF {V : Type} (a : InferArgsCk V) : CkptKey → Option V
  | .model_type => a.model_type
  | .model_id_or_path => a.model_id_or_path
  | .model_revision => a.model_revision
  | .model_cache_dir => a.model_cache_dir
  | .sft_type => a.sft_type
  | .template_type => a.template_type
  | .dtype => a.dtype
  | .system => a.system
  | .quantization_bit => a.quantization_bit
  | .bnb_4bit_comp_dtype => a.bnb_4bit_comp_dtype
  | .bnb_4bit_quant_type => a.bnb_4bit_quant_type
  | .bnb_4bit_use_double_quant => a.bnb_4bit_use_double_quant
  | .dataset => a.dataset
  | .dataset_seed => a.dataset_seed
  | .dataset_test_ratio => a.dataset_test_ratio
  | .check_dataset_strategy => a.check_dataset_strategy
  | .custom_train_dataset_path => a.custom_train_dataset_path
  | .custom_val_dataset_path => a.custom_val_dataset_path

/-- Python `setattr(args, key, v)` for the allow-listed keys. -/
def setF {V : Type} (a : InferArgsCk V) : CkptKey → Option V → InferArgsCk V
  | .model_type, v => { a with model_type := v }
  | .model_id_or_path, v => { a with model_id_or_path := v }
  | .model_revision, v => { a with model_revision := v }
  | .model_cache_dir, v => { a with model_cache_dir := v }
  | .sft_type, v => { a with sft_type := v }
  | .template_type, v => { a with template_type := v }
  | .dtype, v => { a with dtype := v }
  | .system, v => { a with system := v }
  | .quantization_bit, v => { a with quantization_bit := v }
  | .bnb_4bit_comp_dtype, v => { a with bnb_4bit_comp_dtype := v }
  | .bnb_4bit_quant_type, v => { a with bnb_4bit_quant_type := v }
  | .bnb_4bit_use_double_quant, v => { a with bnb_4bit_use_double_quant := v }
  | .dataset, v => { a with dataset := v }
  | .dataset_seed, v => { a with dataset_seed := v }
  | .dataset_test_ratio, v => { a with dataset_test_ratio := v }
  | .check_dataset_strategy, v => { a with check_dataset_strategy := v }
  | .custom_train_dataset_path, v => { a with custom_train_dataset_path := v }
  | .custom_val_dataset_path, v => { a with custom_val_dataset_path := v }

/-- The dataset-related keys appended at argument.py:561-566. -/
def dataset_related_keys : List CkptKey :=
  [.dataset, .dataset_seed, .dataset_test_ratio, .check_dataset_strategy,
   .custom_train_dataset_path, .custom_val_dataset_path]

/-- `imported_keys` (argument.py:555-566): the base allow-list, extended with
the dataset-related keys when the run is not interactive human evaluation. -/
def imported_keys (eval_human : Bool) : List CkptKey :=
  [.model_type, .model_id_or_path, .model_revision, .model_cache_dir,
   .sft_type, .template_type, .dtype, .system, .quantization_bit,
   .bnb_4bit_comp_dtype, .bnb_4bit_quant_type, .bnb_4bit_use_double_quant]
  ++ (if eval_human then [] else dataset_related_keys)

/-- The protected set of argument.py:568-571: keys whose current non-`None`
value must not be overwritten. -/
def protected_keys : List CkptKey :=
  [.model_cache_dir, .dataset, .custom_train_dataset_path, .custom_val_dataset_path]

instance {V : Type} (o : Option V) : Decidable (o = none) :=
  match o with
  | none => isTrue rfl
  | some _ => isFalse (fun h => Option.noConfusion h)

/-- The body of the `for key in imported_keys` loop (argument.py:567-573):
skip a protected key whose current value is not `None`, otherwise
`setattr(args, key, sft_args.get(key))`. -/
def ckptStep {V : Type} (sft_args : CkptKey → Option V) (a : InferArgsCk V)
    (key : CkptKey) : InferArgsCk V :=
  if key ∈ protected_keys ∧ getF a key ≠ none then a
  else setF a key (sft_args key)

/-- `load_from_ckpt_dir` (argument.py:548-573).  The filesystem read is
abstracted: `snapshot` is `none` when `sft_args.json` does not exist in
`ckpt_dir` (then the source just logs and returns, argument.py:550-552), and
`some sft_args` otherwise, where `sft_args k` is `sft_args.get(key)` —
`none` both for a JSON `null` and for a key the snapshot does not define. -/
def load_from_ckpt_dir {V : Type} (snapshot : Option (CkptKey → Option V))
    (args : InferArgsCk V) : InferArgsCk V :=
  match snapshot with
  | none => args
  | some sft_args => (imported_keys args.eval_human).foldl (ckptStep sft_args) args

/-- Python `str.split(',')` on the character list: split at every comma;
`''.split(',')` is `['']`. -/
def splitCommaChars : List Char → List (List Char)
  | [] => [[]]
  | c :: rest =>
    if c = ',' then [] :: splitCommaChars rest
    else
      match splitCommaChars rest with
      | [] => [[c]]
      | h :: t => (c :: h) :: t

/-- Python `s.split(',')`. -/
def splitComma (s : String) : List String :=
  (splitCommaChars s.data).map (fun l => String.mk l)

/-- Modelled from the spec: `TemplateType.chatml` lives in `template.py`,
which is not under `src/`; per the spec's 1:1 alias table the deprecated
template name `'qwen'` is rewritten to the current name, `'chatml'`. -/
def templateTypeChatml : String := "chatml"

/-- The slice of `SftArguments` / `InferArguments` read or written by
`handle_compatibility` (argument.py:423-439) and `handle_path`
(argument.py:506-523).  `isSft` discriminates the two dataclasses (the
`isinstance` checks; `RomeArguments` is a subclass of `InferArguments`).
Fields that exist on one dataclass only are read through Python's
`getattr(args, k, None)`, hence `Option`s; `show_dataset_sample` and
`val_dataset_sample` (`InferArguments` only) are read behind the
`isinstance(args, InferArguments)` guard. -/
structure NormArgs where
  isSft : Bool
  dataset : Option (List String)
  template_type : String
  lora_target_modules : Option (List String)
  show_dataset_sample : Int
  val_dataset_sample : Int
  model_id_or_path : Option String
  model_cache_dir : Option String
  ckpt_dir : Option String
  resume_from_checkpoint : Option String
  deepspeed_config_path : Option String
  custom_train_dataset_path : Option (List String)
  custom_val_dataset_path : Option (List String)
  output_dir : Option String
  logging_dir : Option String
deriving DecidableEq, Repr

/-- argument.py:424-426: expand a single comma-joined dataset-name string
into a list. -/
def hcDataset (args : NormArgs) : NormArgs :=
  match args.dataset with
  | some [d] =>
    if d.data.contains ',' then { args with dataset := some (splitComma d) } else args
  | _ => args

/-- argument.py:427-428: rewrite the deprecated `'chatglm2-generation'`
template alias. -/
def hcTemplateGlm (args : NormArgs) : NormArgs :=
  if args.template_type = "chatglm2-generation" then
    { args with template_type := "chatglm-generation" } else args

/-- argument.py:429-430: rewrite the deprecated `'qwen'` template alias. -/
def hcTemplateQwen (args : NormArgs) : NormArgs :=
  if args.template_type = "qwen" then
    { args with template_type := templateTypeChatml } else args

/-- argument.py:427-430: the two template-type alias rewrites in source
order. -/
def hcTemplate (args : NormArgs) : NormArgs :=
  hcTemplateQwen (hcTemplateGlm args)

/-- argument.py:431-435: rewrite a sole `'AUTO'` in `lora_target_modules`
to `['DEFAULT']` (`SftArguments` only). -/
def hcLora (args : NormArgs) : NormArgs :=
  if args.isSft then
    match args.lora_target_modules with
    | some l =>
      if "AUTO" ∈ l ∧ l.length = 1 then { args with lora_target_modules := some ["DEFAULT"] }
      else args
    | none => args
  else args

/-- argument.py:436-439: copy a non-default `show_dataset_sample` into a
still-default `val_dataset_sample` (`InferArguments` only). -/
def hcSample (args : NormArgs) : NormArgs :=
  if ¬ args.isSft ∧ args.show_dataset_sample ≠ 10 ∧ args.val_dataset_sample = 10 then
    { args with val_dataset_sample := args.show_dataset_sample }
  else args

/-- `handle_compatibility` (argument.py:423-439): the four rewrites in
source order. -/
def handle_compatibility (args : NormArgs) : NormArgs :=
  hcSample (hcLora (hcTemplate (hcDataset args)))

/-- `_check_path` (argument.py:490-503) on a string value: user-home
expansion, absolute-path normalization, and — when `k` is in the
existence-checked set — `os.path.exists` validation, raising
`FileNotFoundError` naming the field and resolved path.  The filesystem is
abstracted into `expanduser`, `abspath` and `pathExists`. -/
def checkPathStr (expanduser abspath : String → String) (pathExists : String → Bool)
    (check : Bool) (k v : String) : Except ResolutionErr String :=
  if check ∧ ¬ pathExists (abspath (expanduser v)) then
    .error (.fileNotFound ("`" ++ k ++ "`: '" ++ abspath (expanduser v) ++ "'"))
  else .ok (abspath (expanduser v))

/-- `_check_path` on a list value: elementwise, first failure raises. -/
def checkPathList (expanduser abspath : String → String) (pathExists : String → Bool)
    (check : Bool) (k : String) : List String → Except ResolutionErr (List String)
  | [] => .ok []
  | v :: rest =>
    match checkPathStr expanduser abspath pathExists check k v with
    | .error e => .error e
    | .ok v2 =>
      match checkPathList expanduser abspath pathExists check k rest with
      | .error e => .error e
      | .ok rest2 => .ok (v2 :: rest2)

/-- One `handle_path` loop iteration on an optional string field
(`getattr(args, k, None)` is `None`: skip). -/
def procOptStr (expanduser abspath : String → String) (pathExists : String → Bool)
    (check : Bool) (k : String) : Option String → Except ResolutionErr (Option String)
  | none => .ok none
  | some v => (checkPathStr expanduser abspath pathExists check k v).map some

/-- One `handle_path` loop iteration on an optional list field. -/
def procOptList (expanduser abspath : String → String) (pathExists : String → Bool)
    (check : Bool) (k : String) : Option (List String) → Except ResolutionErr (Option (List String))
  | none => .ok none
  | some v => (checkPathList expanduser abspath pathExists check k v).map some

/-- Python `s.startswith(c)` for a single-character prefix `c` (the only
form `handle_path` uses). -/
def pyStartsWith (s : String) (c : Char) : Bool :=
  match s.data with
  | [] => false
  | c0 :: _ => c0 = c

/-- argument.py:512-515: `model_id_or_path` joins the existence-checked set
only when it is given and looks like a filesystem path
(`startswith('~') or startswith('/')`). -/
def modelIdIsPath : Option String → Bool
  | some p => pyStartsWith p '~' || pyStartsWith p '/'
  | none => false

/-- `handle_path` (argument.py:506-523): normalize every path-like field,
with existence validation for the `check_exist_path` set (and for
`model_id_or_path` when `modelIdIsPath`); `output_dir` and `logging_dir`
are normalized without validation.  The per-key loop over
`check_exist_path + other_path` is unrolled field by field in source
order. -/
def handle_path (expanduser abspath : String → String) (pathExists : String → Bool)
    (args : NormArgs) : Except ResolutionErr NormArgs :=
  match procOptStr expanduser abspath pathExists true "model_cache_dir" args.model_cache_dir with
  | .error e => .error e
  | .ok mcd =>
  match procOptStr expanduser abspath pathExists true "ckpt_dir" args.ckpt_dir with
  | .error e => .error e
  | .ok cd =>
  match procOptStr expanduser abspath pathExists true "resume_from_checkpoint"
      args.resume_from_checkpoint with
  | .error e => .error e
  | .ok rfc =>
  match procOptStr expanduser abspath pathExists true "deepspeed_config_path"
      args.deepspeed_config_path with
  | .error e => .error e
  | .ok dcp =>
  match procOptList expanduser abspath pathExists true "custom_train_dataset_path"
      args.custom_train_dataset_path with
  | .error e => .error e
  | .ok ctdp =>
  match procOptList expanduser abspath pathExists true "custom_val_dataset_path"
      args.custom_val_dataset_path with
  | .error e => .error e
  | .ok cvdp =>
  match (if modelIdIsPath args.model_id_or_path then
      procOptStr expanduser abspath pathExists true "model_id_or_path" args.model_id_or_path
    else .ok args.model_id_or_path) with
  | .error e => .error e
  | .ok mip =>
  match procOptStr expanduser abspath pathExists false "output_dir" args.output_dir with
  | .error e => .error e
  | .ok od =>
  match procOptStr expanduser abspath pathExists false "logging_dir" args.logging_dir with
  | .error e => .error e
  | .ok ld =>
  .ok { args with
    model_cache_dir := mcd, ckpt_dir := cd, resume_from_checkpoint := rfc,
    deepspeed_config_path := dcp, custom_train_dataset_path := ctdp,
    custom_val_dataset_path := cvdp, model_id_or_path := mip,
    output_dir := od, logging_dir := ld }

/-- The Path & Compatibility Normalizer as `__post_init__` runs it:
`handle_compatibility(self)` then `handle_path(self)`
(argument.py:155-156, 310-311). -/
def normalizeArgs (expanduser abspath : String → String) (pathExists : String → Bool)
    (args : NormArgs) : Except ResolutionErr NormArgs :=
  handle_path expanduser abspath pathExists (handle_compatibility args)

theorem ub_go_spec (cond : Nat → Bool) :
    ∀ fuel lo hi : Nat, lo ≤ hi → hi - lo ≤ fuel →
      lo ≤ ub_go cond fuel lo hi ∧ ub_go cond fuel lo hi ≤ hi ∧
      (ub_go cond fuel lo hi = lo ∨ cond (ub_go cond fuel lo hi) = true) ∧
      (ub_go cond fuel lo hi = hi ∨ cond (ub_go cond fuel lo hi + 1) = false) := by
  intro fuel
  induction fuel with
  | zero =>
    intro lo hi h1 h2
    have hlh : lo = hi := by omega
    subst hlh
    exact ⟨le_rfl, le_rfl, Or.inl rfl, Or.inl rfl⟩
  | succ n ih =>
    intro lo hi h1 h2
    by_cases hlt : lo < hi
    · have hm1 : lo < (lo + hi + 1) / 2 := by omega
      have hm2 : (lo + hi + 1) / 2 ≤ hi := by omega
      by_cases hc : cond ((lo + hi + 1) / 2) = true
      · have hrw : ub_go cond (n + 1) lo hi = ub_go cond n ((lo + hi + 1) / 2) hi := by
          simp [ub_go, hlt, hc]
        rw [hrw]
        obtain ⟨a, b, c, d⟩ := ih ((lo + hi + 1) / 2) hi hm2 (by omega)
        refine ⟨by omega, b, ?_, d⟩
        rcases c with c | c
        · exact Or.inr (by rw [c]; exact hc)
        · exact Or.inr c
      · have hrw : ub_go cond (n + 1) lo hi = ub_go cond n lo ((lo + hi + 1) / 2 - 1) := by
          simp [ub_go, hlt, hc]
        rw [hrw]
        obtain ⟨a, b, c, d⟩ := ih lo ((lo + hi + 1) / 2 - 1) (by omega) (by omega)
        refine ⟨a, by omega, c, ?_⟩
        rcases d with d | d
        · refine Or.inr ?_
          have he : ub_go cond n lo ((lo + hi + 1) / 2 - 1) + 1 = (lo + hi + 1) / 2 := by
            omega
          rw [he]
          simpa using hc
        · exact Or.inr d
    · have hlh : lo = hi := by omega
      subst hlh
      have hrw : ub_go cond (n + 1) lo lo = lo := by simp [ub_go]
      rw [hrw]
      exact ⟨le_rfl, le_rfl, Or.inl rfl, Or.inl rfl⟩

theorem ub_go_all (cond : Nat → Bool) :
    ∀ fuel lo hi : Nat, lo ≤ hi → hi - lo ≤ fuel →
      (∀ j, lo < j → j ≤ hi → cond j = true) → ub_go cond fuel lo hi = hi := by
  intro fuel
  induction fuel with
  | zero =>
    intro lo hi h1 h2 _
    have hlh : lo = hi := by omega
    subst hlh
    rfl
  | succ n ih =>
    intro lo hi h1 h2 hall
    by_cases hlt : lo < hi
    · have hm1 : lo < (lo + hi + 1) / 2 := by omega
      have hm2 : (lo + hi + 1) / 2 ≤ hi := by omega
      have hc : cond ((lo + hi + 1) / 2) = true := hall _ hm1 hm2
      have hrw : ub_go cond (n + 1) lo hi = ub_go cond n ((lo + hi + 1) / 2) hi := by
        simp [ub_go, hlt, hc]
      rw [hrw]
      exact ih _ _ hm2 (by omega) (fun j hj1 hj2 => hall j (by omega) hj2)
    · have hlh : lo = hi := by omega
      subst hlh
      simp [ub_go]

theorem upper_bound_spec (lo hi : Nat) (cond : Nat → Bool) (h : lo ≤ hi) :
    lo ≤ upper_bound lo hi cond ∧ upper_bound lo hi cond ≤ hi ∧
    (upper_bound lo hi cond = lo ∨ cond (upper_bound lo hi cond) = true) ∧
    (upper_bound lo hi cond = hi ∨ cond (upper_bound lo hi cond + 1) = false) :=
  ub_go_spec cond (hi - lo) lo hi h le_rfl

theorem upper_bound_all (lo hi : Nat) (cond : Nat → Bool) (h : lo ≤ hi)
    (hall : ∀ j, lo < j → j ≤ hi → cond j = true) :
    upper_bound lo hi cond = hi :=
  ub_go_all cond (hi - lo) lo hi h le_rfl hall

theorem labelRuns_append (decode : List Int → String) (m : Bool) (a b : List Int)
    (ha : a ≠ []) (hall : ∀ x ∈ a, isMaskedLabel x = m)
    (hb : ∀ y, b.head? = some y → isMaskedLabel y ≠ m) :
    labelRuns decode (a ++ b)
      = (if m then labelsMarker a.length else decode a) ++ labelRuns decode b := by
  obtain ⟨x, xs, rfl⟩ : ∃ x xs, a = x :: xs := by
    cases a with
    | nil => exact absurd rfl ha
    | cons x xs => exact ⟨x, xs, rfl⟩
  have hx : isMaskedLabel x = m := hall x (by simp)
  have hxs : ∀ y ∈ xs, decide (isMaskedLabel y = isMaskedLabel x) = true := by
    intro y hy
    simp only [hx, decide_eq_true_eq]
    exact hall y (List.mem_cons_of_mem x hy)
  have htw : (xs ++ b).takeWhile (fun y => isMaskedLabel y = isMaskedLabel x)
      = xs ++ b.takeWhile (fun y => isMaskedLabel y = isMaskedLabel x) :=
    List.takeWhile_append_of_pos hxs
  have hdw : (xs ++ b).dropWhile (fun y => isMaskedLabel y = isMaskedLabel x)
      = b.dropWhile (fun y => isMaskedLabel y = isMaskedLabel x) :=
    List.dropWhile_append_of_pos hxs
  have hbtw : b.takeWhile (fun y => isMaskedLabel y = isMaskedLabel x) = [] := by
    cases b with
    | nil => rfl
    | cons y ys =>
      have : isMaskedLabel y ≠ m := hb y rfl
      rw [List.takeWhile_cons_of_neg]
      simp [hx, this]
  have hbdw : b.dropWhile (fun y => isMaskedLabel y = isMaskedLabel x) = b := by
    cases b with
    | nil => rfl
    | cons y ys =>
      have : isMaskedLabel y ≠ m := hb y rfl
      rw [List.dropWhile_cons_of_neg]
      simp [hx, this]
  show labelRuns decode (x :: (xs ++ b)) = _
  rw [labelRuns, htw, hbtw, hdw, hbdw, List.append_nil, hx]

theorem labelRuns_append_masked (decode : List Int → String) (a b : List Int)
    (ha : a ≠ []) (hall : ∀ x ∈ a, isMaskedLabel x = true)
    (hb : ∀ y, b.head? = some y → isMaskedLabel y ≠ true) :
    labelRuns decode (a ++ b) = labelsMarker a.length ++ labelRuns decode b := by
  have := labelRuns_append decode true a b ha hall hb
  simpa using this

theorem labelRuns_append_unmasked (decode : List Int → String) (a b : List Int)
    (ha : a ≠ []) (hall : ∀ x ∈ a, isMaskedLabel x = false)
    (hb : ∀ y, b.head? = some y → isMaskedLabel y ≠ false) :
    labelRuns decode (a ++ b) = decode a ++ labelRuns decode b := by
  have := labelRuns_append decode false a b ha hall hb
  simpa using this

theorem slice_all_masked (labels : List Int) (s0 i : Nat) (hi : i ≤ labels.length)
    (h : ∀ j, s0 ≤ j → j < i → labels.getD j 0 = -100) :
    ∀ x ∈ (labels.drop s0).take (i - s0), isMaskedLabel x = true := by
  intro x hx
  obtain ⟨j, hj, hxj⟩ := List.mem_iff_getElem.mp hx
  have hjb : j < i - s0 ∧ j < labels.length - s0 := by
    simp [List.length_take, List.length_drop] at hj
    omega
  have hsj : s0 + j < labels.length := by omega
  have heq : ((labels.drop s0).take (i - s0))[j] = labels[s0 + j] := by
    rw [List.getElem_take, List.getElem_drop]
  rw [heq] at hxj
  have hgd : labels.getD (s0 + j) 0 = x := by
    rw [List.getD_eq_getElem labels 0 (by omega)]
    exact hxj
  have hm := h (s0 + j) (by omega) (by omega)
  rw [hgd] at hm
  simp [isMaskedLabel, hm]

theorem slice_all_unmasked (labels : List Int) (e0 i : Nat) (hi : i ≤ labels.length)
    (h : ∀ j, e0 ≤ j → j < i → labels.getD j 0 ≠ -100) :
    ∀ x ∈ (labels.drop e0).take (i - e0), isMaskedLabel x = false := by
  intro x hx
  obtain ⟨j, hj, hxj⟩ := List.mem_iff_getElem.mp hx
  have hjb : j < i - e0 ∧ j < labels.length - e0 := by
    simp [List.length_take, List.length_drop] at hj
    omega
  have hej : e0 + j < labels.length := by omega
  have heq : ((labels.drop e0).take (i - e0))[j] = labels[e0 + j] := by
    rw [List.getElem_take, List.getElem_drop]
  rw [heq] at hxj
  have hgd : labels.getD (e0 + j) 0 = x := by
    rw [List.getD_eq_getElem labels 0 (by omega)]
    exact hxj
  have hm := h (e0 + j) (by omega) (by omega)
  rw [hgd] at hm
  simp [isMaskedLabel, hm]

theorem getD_head_drop (labels : List Int) (i : Nat) (hi : i < labels.length) :
    (labels.drop i).head? = some (labels.getD i 0) := by
  rw [List.head?_drop, List.getElem?_eq_getElem hi, List.getD_eq_getElem labels 0 hi]

theorem labelRuns_split_masked (decode : List Int → String) (labels : List Int)
    (s0 i : Nat) (hs : s0 < i) (hi : i < labels.length)
    (hmask : ∀ j, s0 ≤ j → j < i → labels.getD j 0 = -100)
    (hli : labels.getD i 0 ≠ -100) :
    labelRuns decode (labels.drop s0)
      = labelsMarker (i - s0) ++ labelRuns decode (labels.drop i) := by
  have hab : (labels.drop s0).take (i - s0) ++ labels.drop i = labels.drop s0 := by
    have h := List.drop_take_append_drop labels s0 (i - s0)
    rwa [show s0 + (i - s0) = i from by omega] at h
  have hane : (labels.drop s0).take (i - s0) ≠ [] := by
    intro hcon
    have := congrArg List.length hcon
    simp [List.length_take, List.length_drop] at this
    omega
  have hall := slice_all_masked labels s0 i (by omega) hmask
  have hb : ∀ y, (labels.drop i).head? = some y → isMaskedLabel y ≠ true := by
    intro y hy
    rw [getD_head_drop labels i hi] at hy
    have hyy := Option.some.inj hy
    rw [← hyy]
    simp only [isMaskedLabel, ne_eq, decide_eq_true_eq]
    exact hli
  have h := labelRuns_append_masked decode _ _ hane hall hb
  rw [hab] at h
  rw [h]
  have hlen : ((labels.drop s0).take (i - s0)).length = i - s0 := by
    simp [List.length_take, List.length_drop]
    omega
  rw [hlen]

theorem labelRuns_split_unmasked (decode : List Int → String) (labels : List Int)
    (e0 i : Nat) (he : e0 < i) (hi : i < labels.length)
    (hmask : ∀ j, e0 ≤ j → j < i → labels.getD j 0 ≠ -100)
    (hli : labels.getD i 0 = -100) :
    labelRuns decode (labels.drop e0)
      = decode ((labels.drop e0).take (i - e0)) ++ labelRuns decode (labels.drop i) := by
  have hab : (labels.drop e0).take (i - e0) ++ labels.drop i = labels.drop e0 := by
    have h := List.drop_take_append_drop labels e0 (i - e0)
    rwa [show e0 + (i - e0) = i from by omega] at h
  have hane : (labels.drop e0).take (i - e0) ≠ [] := by
    intro hcon
    have := congrArg List.length hcon
    simp [List.length_take, List.length_drop] at this
    omega
  have hall := slice_all_unmasked labels e0 i (by omega) hmask
  have hb : ∀ y, (labels.drop i).head? = some y → isMaskedLabel y ≠ false := by
    intro y hy
    rw [getD_head_drop labels i hi] at hy
    have hyy := Option.some.inj hy
    rw [← hyy]
    simp only [isMaskedLabel, ne_eq, decide_eq_false_iff_not, not_not]
    exact hli
  have h := labelRuns_append_unmasked decode _ _ hane hall hb
  rw [hab] at h
  rw [h]

theorem labelRuns_tail_masked (decode : List Int → String) (labels : List Int)
    (s0 : Nat) (hs : s0 < labels.length)
    (hmask : ∀ j, s0 ≤ j → j < labels.length → labels.getD j 0 = -100) :
    labelRuns decode (labels.drop s0) = labelsMarker (labels.length - s0) := by
  have hane : labels.drop s0 ≠ [] := by
    intro hcon
    have := congrArg List.length hcon
    simp [List.length_drop] at this
    omega
  have htake : (labels.drop s0).take (labels.length - s0) = labels.drop s0 :=
    List.take_of_length_le (by simp [List.length_drop])
  have hall := slice_all_masked labels s0 labels.length le_rfl hmask
  rw [htake] at hall
  have h := labelRuns_append_masked decode (labels.drop s0) [] hane hall
    (by intro y hy; simp at hy)
  rw [List.append_nil] at h
  rw [h]
  have h0 : labelRuns decode [] = "" := by rw [labelRuns]
  rw [h0, String.append_empty, List.length_drop]

theorem labelRuns_tail_unmasked (decode : List Int → String) (labels : List Int)
    (e0 : Nat) (he : e0 < labels.length)
    (hmask : ∀ j, e0 ≤ j → j < labels.length → labels.getD j 0 ≠ -100) :
    labelRuns decode (labels.drop e0) = decode (labels.drop e0) := by
  have hane : labels.drop e0 ≠ [] := by
    intro hcon
    have := congrArg List.length hcon
    simp [List.length_drop] at this
    omega
  have htake : (labels.drop e0).take (labels.length - e0) = labels.drop e0 :=
    List.take_of_length_le (by simp [List.length_drop])
  have hall := slice_all_unmasked labels e0 labels.length le_rfl hmask
  rw [htake] at hall
  have h := labelRuns_append_unmasked decode (labels.drop e0) [] hane hall
    (by intro y hy; simp at hy)
  rw [List.append_nil] at h
  rw [h]
  have h0 : labelRuns decode [] = "" := by rw [labelRuns]
  rw [h0, String.append_empty]

theorem labelsLoop_spec (decode : List Int → String) (labels : List Int) :
    ∀ d i : Nat, i + d = labels.length → 1 ≤ i → ∀ st : LabelsLoopSt,
      (st.s < i → (∀ j, st.s ≤ j → j < i → labels.getD j 0 = -100) →
        labelsFin decode labels ((List.range' i d).foldl (labelsStep decode labels) st)
          = st.str ++ labelRuns decode (labels.drop st.s)) ∧
      (st.e < i → (∀ j, st.e ≤ j → j < i → labels.getD j 0 ≠ -100) →
        labelsFin decode labels ((List.range' i d).foldl (labelsStep decode labels) st)
          = st.str ++ labelRuns decode (labels.drop st.e)) := by
  intro d
  induction d with
  | zero =>
    intro i hi h1 st
    have hieq : i = labels.length := by omega
    subst hieq
    have hr0 : List.range' labels.length 0 = [] := rfl
    rw [hr0, List.foldl_nil]
    constructor
    · intro hs hmask
      have hlast : labels.getD (labels.length - 1) 0 = -100 := by
        apply hmask <;> omega
      rw [labelsFin, if_pos hlast, labelRuns_tail_masked decode labels st.s hs hmask]
    · intro he hmask
      have hlast : ¬ labels.getD (labels.length - 1) 0 = -100 := by
        apply hmask <;> omega
      rw [labelsFin, if_neg hlast, labelRuns_tail_unmasked decode labels st.e he hmask]
  | succ d ih =>
    intro i hi h1 st
    have hilt : i < labels.length := by omega
    rw [List.range'_succ, List.foldl_cons]
    constructor
    · intro hs hmask
      have hlp : labels.getD (i - 1) 0 = -100 := hmask (i - 1) (by omega) (by omega)
      by_cases hli : labels.getD i 0 = -100
      · have hc1 : ¬ (labels.getD i 0 = -100 ∧ labels.getD (i - 1) 0 ≠ -100) := by
          intro hcon
          exact hcon.2 hlp
        have hc2 : ¬ (labels.getD i 0 ≠ -100 ∧ labels.getD (i - 1) 0 = -100) := by
          intro hcon
          exact hcon.1 hli
        have hstep : labelsStep decode labels st i = st := by
          simp only [labelsStep, if_neg hc1, if_neg hc2]
        rw [hstep]
        refine (ih (i + 1) (by omega) (by omega) st).1 (by omega) ?_
        intro j hj1 hj2
        rcases Nat.lt_or_ge j i with h | h
        · exact hmask j hj1 h
        · have hj : j = i := by omega
          subst hj
          exact hli
      · have hc1 : ¬ (labels.getD i 0 = -100 ∧ labels.getD (i - 1) 0 ≠ -100) := by
          intro hcon
          exact hli hcon.1
        have hc2 : labels.getD i 0 ≠ -100 ∧ labels.getD (i - 1) 0 = -100 := ⟨hli, hlp⟩
        have hstep : labelsStep decode labels st i
            = ⟨st.str ++ labelsMarker (i - st.s), st.s, i⟩ := by
          simp only [labelsStep, if_neg hc1, if_pos hc2]
        rw [hstep]
        have hih := (ih (i + 1) (by omega) (by omega)
          ⟨st.str ++ labelsMarker (i - st.s), st.s, i⟩).2
        have hih2 : labelsFin decode labels
            ((List.range' (i + 1) d).foldl (labelsStep decode labels)
              ⟨st.str ++ labelsMarker (i - st.s), st.s, i⟩)
            = (st.str ++ labelsMarker (i - st.s)) ++ labelRuns decode (labels.drop i) := by
          refine hih (by show i < i + 1; omega) ?_
          intro j hj1 hj2
          have hj : j = i := by
            have hj1i : i ≤ j := hj1
            omega
          subst hj
          exact hli
        rw [hih2, labelRuns_split_masked decode labels st.s i hs hilt hmask hli,
          String.append_assoc]
    · intro he hmask
      have hlp : labels.getD (i - 1) 0 ≠ -100 := hmask (i - 1) (by omega) (by omega)
      by_cases hli : labels.getD i 0 = -100
      · have hc1 : labels.getD i 0 = -100 ∧ labels.getD (i - 1) 0 ≠ -100 := ⟨hli, hlp⟩
        have hc2 : ¬ (labels.getD i 0 ≠ -100 ∧ labels.getD (i - 1) 0 = -100) := by
          intro hcon
          exact hcon.1 hli
        have hstep : labelsStep decode labels st i
            = ⟨st.str ++ decode ((labels.drop st.e).take (i - st.e)), i, st.e⟩ := by
          simp only [labelsStep, if_pos hc1, if_neg hc2]
        rw [hstep]
        have hih := (ih (i + 1) (by omega) (by omega)
          ⟨st.str ++ decode ((labels.drop st.e).take (i - st.e)), i, st.e⟩).1
        have hih2 : labelsFin decode labels
            ((List.range' (i + 1) d).foldl (labelsStep decode labels)
              ⟨st.str ++ decode ((labels.drop st.e).take (i - st.e)), i, st.e⟩)
            = (st.str ++ decode ((labels.drop st.e).take (i - st.e)))
              ++ labelRuns decode (labels.drop i) := by
          refine hih (by show i < i + 1; omega) ?_
          intro j hj1 hj2
          have hj : j = i := by
            have hj1i : i ≤ j := hj1
            omega
          subst hj
          exact hli
        rw [hih2, labelRuns_split_unmasked decode labels st.e i he hilt hmask hli,
          String.append_assoc]
      · have hc1 : ¬ (labels.getD i 0 = -100 ∧ labels.getD (i - 1) 0 ≠ -100) := by
          intro hcon
          exact hli hcon.1
        have hc2 : ¬ (labels.getD i 0 ≠ -100 ∧ labels.getD (i - 1) 0 = -100) := by
          intro hcon
          exact hlp hcon.2
        have hstep : labelsStep decode labels st i = st := by
          simp only [labelsStep, if_neg hc1, if_neg hc2]
        rw [hstep]
        refine (ih (i + 1) (by omega) (by omega) st).2 (by omega) ?_
        intro j hj1 hj2
        rcases Nat.lt_or_ge j i with h | h
        · exact hmask j hj1 h
        · have hj : j = i := by omega
          subst hj
          exact hli

/-- C6: `_get_labels_str` produces, for every label sequence and every decode
function, the string that alternates, in original order, the decoded text of
each contiguous non-masked run and a literal marker for each contiguous
masked run of length N (`labelRuns`, written from the spec's words) —
including runs at the start and end; in particular an all-masked input of
length N produces the single marker and the empty input the empty string. -/
theorem getLabelsStr_eq_labelRuns (decode : List Int → String) (labels : List Int) :
    getLabelsStr decode labels = labelRuns decode labels := by
  cases labels with
  | nil =>
    have h0 : labelRuns decode [] = "" := by rw [labelRuns]
    rw [h0]
    rfl
  | cons x xs =>
    have hgls : getLabelsStr decode (x :: xs)
        = labelsFin decode (x :: xs)
            ((List.range' 1 xs.length).foldl (labelsStep decode (x :: xs)) ⟨"", 0, 0⟩) := by
      simp [getLabelsStr]
    have hspec := labelsLoop_spec decode (x :: xs) xs.length 1 (by simp [Nat.add_comm]) le_rfl
      ⟨"", 0, 0⟩
    by_cases hx : (x :: xs).getD 0 0 = -100
    · have hmask1 : ∀ j : Nat, 0 ≤ j → j < 1 → (x :: xs).getD j 0 = -100 := by
        intro j hj1 hj2
        have hj : j = 0 := by omega
        subst hj
        exact hx
      have h := hspec.1 (by show (0 : Nat) < 1; omega) hmask1
      rw [hgls, h]
      rfl
    · have hmask1 : ∀ j : Nat, 0 ≤ j → j < 1 → (x :: xs).getD j 0 ≠ -100 := by
        intro j hj1 hj2
        have hj : j = 0 := by omega
        subst hj
        exact hx
      have h := hspec.2 (by show (0 : Nat) < 1; omega) hmask1
      rw [hgls, h]
      rfl


/-- C1 (amended): `limit_history_length` returns `(old_history, history)` where
`history = H.drop (H.length - k)` is a suffix of length `k`, `old_history` the
complementary prefix, the encoded length of the kept suffix is at most `L`
unless `k = 0` (when even the zero-history encoding may exceed `L` the empty
suffix is still returned), and either `k = len(H)` or the suffix of length
`k + 1` encodes to strictly more than `L` tokens; stated under the
precondition that encoded length is non-decreasing in suffix length. -/
theorem limit_history_length_maximal {α : Type} (encLen : List α → Nat)
    (H : List α) (L : Nat)
    (_hmono : ∀ i j : Nat, i ≤ j → j ≤ H.length →
      encLen (H.drop (H.length - i)) ≤ encLen (H.drop (H.length - j))) :
    ∃ k : Nat, k ≤ H.length ∧
      (limit_history_length encLen H L).1 = H.take (H.length - k) ∧
      (limit_history_length encLen H L).2 = H.drop (H.length - k) ∧
      (limit_history_length encLen H L).2.length = k ∧
      (limit_history_length encLen H L).1 ++ (limit_history_length encLen H L).2 = H ∧
      (k = 0 ∨ encLen (limit_history_length encLen H L).2 ≤ L) ∧
      (k = H.length ∨ L < encLen (H.drop (H.length - (k + 1)))) := by
  obtain ⟨-, hkle, hfeas, hnext⟩ := upper_bound_spec 0 H.length
    (fun mid => decide (compute_token_length encLen H mid ≤ L)) (Nat.zero_le _)
  refine ⟨upper_bound 0 H.length
      (fun mid => decide (compute_token_length encLen H mid ≤ L)),
    hkle, rfl, rfl, ?_, List.take_append_drop _ _, ?_, ?_⟩
  · show (H.drop _).length = _
    rw [List.length_drop]
    omega
  · rcases hfeas with h | h
    · exact Or.inl h
    · refine Or.inr ?_
      have := of_decide_eq_true h
      simpa [compute_token_length] using this
  · rcases hnext with h | h
    · exact Or.inl h
    · refine Or.inr ?_
      have := of_decide_eq_false h
      simp only [compute_token_length, Nat.not_le] at this
      exact this

theorem limit_history_length_maximal_witness :
    ∃ k : Nat, k ≤ ([5, 6] : List Nat).length ∧
      (limit_history_length (fun l : List Nat => l.length) [5, 6] 1).1
        = ([5, 6] : List Nat).take (([5, 6] : List Nat).length - k) ∧
      (limit_history_length (fun l : List Nat => l.length) [5, 6] 1).2
        = ([5, 6] : List Nat).drop (([5, 6] : List Nat).length - k) ∧
      (limit_history_length (fun l : List Nat => l.length) [5, 6] 1).2.length = k ∧
      (limit_history_length (fun l : List Nat => l.length) [5, 6] 1).1 ++
        (limit_history_length (fun l : List Nat => l.length) [5, 6] 1).2 = [5, 6] ∧
      (k = 0 ∨ (limit_history_length (fun l : List Nat => l.length) [5, 6] 1).2.length ≤ 1) ∧
      (k = ([5, 6] : List Nat).length ∨
        1 < (([5, 6] : List Nat).drop (([5, 6] : List Nat).length - (k + 1))).length) :=
  limit_history_length_maximal (fun l : List Nat => l.length) [5, 6] 1
    (by
      intro i j hij hj
      simp only [List.length_drop]
      simp at hj ⊢
      omega)

/-- C1 (counterexample to the claim as stated): with the monotone encoder
`fun l => l.length + 1` (the fixed query alone already encodes to 1 token),
history `[0]` and limit `0`, the returned suffix is empty and its encoded
length `1` exceeds the limit `0`, although the encoder is non-decreasing in
suffix length.  So the conjunct "the encoded length of the kept suffix is at
most `L`" of the claim fails at this input. -/
theorem limit_history_length_cex :
    (∀ i j : Nat, i ≤ j → j ≤ ([0] : List Nat).length →
      (List.drop (([0] : List Nat).length - i) [0]).length + 1 ≤
      (List.drop (([0] : List Nat).length - j) [0]).length + 1) ∧
    ¬ ((limit_history_length (fun l : List Nat => l.length + 1) [0] 0).2.length + 1 ≤ 0) := by
  constructor
  · intro i j hij hj
    simp only [List.length_drop]
    simp at hj ⊢
    omega
  · have h : (limit_history_length (fun l : List Nat => l.length + 1) [0] 0).2 = [] := by
      decide
    rw [h]
    simp

/-- C7: truncating an already-maximal suffix again with the same query and
limit returns it unchanged with an empty discarded prefix, given that the
encoded length is non-decreasing in suffix length. -/
theorem limit_history_length_idem {α : Type} (encLen : List α → Nat)
    (H : List α) (L : Nat)
    (hmono : ∀ i j : Nat, i ≤ j → j ≤ H.length →
      encLen (H.drop (H.length - i)) ≤ encLen (H.drop (H.length - j))) :
    limit_history_length encLen (limit_history_length encLen H L).2 L
      = ([], (limit_history_length encLen H L).2) := by
  obtain ⟨-, hkle, hfeas, -⟩ := upper_bound_spec 0 H.length
    (fun mid => decide (compute_token_length encLen H mid ≤ L)) (Nat.zero_le _)
  show limit_history_length encLen
      (H.drop (H.length - upper_bound 0 H.length
        (fun mid => decide (compute_token_length encLen H mid ≤ L)))) L
    = ([], H.drop (H.length - upper_bound 0 H.length
        (fun mid => decide (compute_token_length encLen H mid ≤ L))))
  generalize hk : upper_bound 0 H.length
      (fun mid => decide (compute_token_length encLen H mid ≤ L)) = k at hkle hfeas ⊢
  have hlen : (H.drop (H.length - k)).length = k := by
    rw [List.length_drop]
    omega
  have hall : ∀ j, 0 < j → j ≤ (H.drop (H.length - k)).length →
      (fun mid => decide (compute_token_length encLen (H.drop (H.length - k)) mid ≤ L)) j
        = true := by
    intro j hj0 hjk
    rw [hlen] at hjk
    have hck : encLen (H.drop (H.length - k)) ≤ L := by
      rcases hfeas with h | h
      · omega
      · simpa [compute_token_length] using of_decide_eq_true h
    have hdd : (H.drop (H.length - k)).drop ((H.drop (H.length - k)).length - j)
        = H.drop (H.length - j) := by
      rw [hlen, List.drop_drop]
      congr 1
      omega
    simp only [compute_token_length, hdd]
    exact decide_eq_true (le_trans (hmono j k hjk hkle) hck)
  have hub : upper_bound 0 (H.drop (H.length - k)).length
      (fun mid => decide (compute_token_length encLen (H.drop (H.length - k)) mid ≤ L))
      = (H.drop (H.length - k)).length :=
    upper_bound_all _ _ _ (Nat.zero_le _) hall
  show ((H.drop (H.length - k)).take ((H.drop (H.length - k)).length - upper_bound 0
      (H.drop (H.length - k)).length
      (fun mid => decide (compute_token_length encLen (H.drop (H.length - k)) mid ≤ L))),
    (H.drop (H.length - k)).drop ((H.drop (H.length - k)).length - upper_bound 0
      (H.drop (H.length - k)).length
      (fun mid => decide (compute_token_length encLen (H.drop (H.length - k)) mid ≤ L))))
    = ([], H.drop (H.length - k))
  rw [hub, Nat.sub_self]
  simp

theorem limit_history_length_idem_witness :
    limit_history_length (fun l : List Nat => l.length)
        ((limit_history_length (fun l : List Nat => l.length) [5, 6] 1).2) 1
      = ([], (limit_history_length (fun l : List Nat => l.length) [5, 6] 1).2) :=
  limit_history_length_idem (fun l : List Nat => l.length) [5, 6] 1
    (by
      intro i j hij hj
      simp only [List.length_drop]
      simp at hj ⊢
      omega)

/-- C2 (counterexample to the claim as stated): the quantization bit 3 is
outside {0, 4, 8}, yet `select_bnb` raises nothing — it resolves
successfully, treating the value as "no quantization" (both flags false);
no `InvalidQuantizationError` is raised anywhere in it. -/
theorem select_bnb_cex :
    ((3 : Int) ≠ 0 ∧ (3 : Int) ≠ 4 ∧ (3 : Int) ≠ 8) ∧
    select_bnb true ⟨"bf16", "fp16", 3⟩
      = .ok (.float16, false, false, ⟨"bf16", "fp16", 3⟩) := by
  exact ⟨by decide, rfl⟩

/-- C2 (amended): `select_bnb` performs no validation of the
quantization-bit field: every value other than 4 and 8 — the legal 0 as
well as any illegal value — resolves successfully with both quantization
flags false; the `{0, 4, 8}` constraint lives only in the CLI `choices`
metadata of the dataclass field, not in this resolver. -/
theorem select_bnb_no_validation (bnbAvailable : Bool) (args : BnbArgsSlice)
    (d : TorchDtype) (hq4 : args.quantization_bit ≠ 4) (hq8 : args.quantization_bit ≠ 8)
    (hdt : dtype_mapping_reversed
      (if args.bnb_4bit_comp_dtype = "AUTO" then args.dtype else args.bnb_4bit_comp_dtype)
        = some d) :
    select_bnb bnbAvailable args = .ok (d, false, false,
      if args.bnb_4bit_comp_dtype = "AUTO" then { args with bnb_4bit_comp_dtype := args.dtype }
      else args) := by
  obtain ⟨dt, cdt, qb⟩ := args
  simp only at hq4 hq8 hdt ⊢
  by_cases hA : cdt = "AUTO"
  · subst hA
    rw [if_pos rfl] at hdt
    simp [select_bnb, hdt, hq4, hq8]
  · rw [if_neg hA] at hdt
    simp [select_bnb, hA, hdt, hq4, hq8]

theorem select_bnb_no_validation_witness :
    select_bnb true ⟨"bf16", "AUTO", 0⟩
      = .ok (.bfloat16, false, false, ⟨"bf16", "bf16", 0⟩) :=
  select_bnb_no_validation true ⟨"bf16", "AUTO", 0⟩ .bfloat16
    (by decide) (by decide) (by decide)

/-- C5: supplying both a symbolic model identifier and an explicit model
path makes `set_model_type` fail at its first `assert` (argument.py:443) —
the error the spec's taxonomy calls `AmbiguousModelSpecError` — whatever
the registry and environment. -/
theorem set_model_type_ambiguous (mapping : List (String × ModelInfo))
    (pathExists requireOk : String → Bool) (args : ModelSpecArgs)
    (ht : args.model_type ≠ none) (hp : args.model_id_or_path ≠ none) :
    set_model_type mapping pathExists requireOk args = .error (.assertionFailed "") := by
  unfold set_model_type
  rw [if_pos ⟨ht, hp⟩]

theorem set_model_type_ambiguous_witness :
    set_model_type [] (fun _ => false) (fun _ => true)
        ⟨some "qwen-7b-chat", some "qwen/Qwen-7B-Chat", none⟩
      = .error (.assertionFailed "") :=
  set_model_type_ambiguous [] (fun _ => false) (fun _ => true)
    ⟨some "qwen-7b-chat", some "qwen/Qwen-7B-Chat", none⟩ (by decide) (by decide)

/-- C3 (counterexample to the claim as stated): with `dtype = 'fp16'` and
`sft_type = 'full'`, `select_dtype` (run at argument.py:166) does yield
`torch.float32` and the warning, but `SftArguments.__post_init__` then
fails its `assert self.dtype != 'fp16'` (argument.py:190), so resolution of
this configuration raises an error instead of never raising. -/
theorem select_dtype_fp16_full_cex :
    select_dtype true none ⟨"fp16", "qwen-7b-chat", "full", 0, none, none, none⟩
      = .ok (.float32, true, false, ⟨"fp16", "qwen-7b-chat", "full", 0, none, none, none⟩,
          ["Setting torch_dtype: torch.float32"]) ∧
    sft_post_init_precision true none ⟨"fp16", "qwen-7b-chat", "full", 0, none, none, none⟩
      = .error (.assertionFailed "please use bf16 or fp32") := by
  exact ⟨rfl, rfl⟩

/-- C3 (amended): for every SftArguments configuration requesting fp16 —
given explicitly, or resolved from 'AUTO' because bf16 is unsupported —
together with full-parameter training, `select_dtype` itself yields
`torch.float32` and emits the warning without raising; but the containing
`__post_init__` then always raises an `AssertionError` (its full-branch
assert on `dtype != 'fp16'`, or the quantization assert first when
`quantization_bit ≠ 0`), so the configuration never resolves without an
error. -/
theorem select_dtype_fp16_full (bf16Sup : Bool) (modelDtype : Option TorchDtype)
    (args : SftArgsSlice) (hfull : args.sft_type = "full")
    (hdt : args.dtype = "fp16" ∨ (args.dtype = "AUTO" ∧ bf16Sup = false)) :
    ∃ args1 : SftArgsSlice,
      select_dtype bf16Sup modelDtype args
        = .ok (.float32, true, false, args1, ["Setting torch_dtype: torch.float32"]) ∧
      ∃ e : ResolutionErr,
        sft_post_init_precision bf16Sup modelDtype args = .error e := by
  obtain ⟨dt, mt, stype, qb, lr, osm, dsp⟩ := args
  simp only at hfull hdt
  subst hfull
  have hsel : select_dtype bf16Sup modelDtype ⟨dt, mt, "full", qb, lr, osm, dsp⟩
      = .ok (.float32, true, false, ⟨"fp16", mt, "full", qb, lr, osm, dsp⟩,
          ["Setting torch_dtype: torch.float32"]) := by
    rcases hdt with h | ⟨h, hb⟩
    · subst h
      simp [select_dtype, dtype_mapping_reversed]
    · subst h
      subst hb
      simp [select_dtype, dtype_mapping_reversed]
  refine ⟨⟨"fp16", mt, "full", qb, lr, osm, dsp⟩, hsel, ?_⟩
  unfold sft_post_init_precision
  rw [hsel]
  by_cases hqb : qb = 0
  · subst hqb
    exact ⟨.assertionFailed "please use bf16 or fp32", by simp [sft_type_dispatch]⟩
  · exact ⟨.assertionFailed "not supported", by simp [sft_type_dispatch, hqb]⟩

theorem select_dtype_fp16_full_witness :
    ∃ args1 : SftArgsSlice,
      select_dtype false none ⟨"AUTO", "llama2-7b-chat", "full", 0, none, none, none⟩
        = .ok (.float32, true, false, args1, ["Setting torch_dtype: torch.float32"]) ∧
      ∃ e : ResolutionErr,
        sft_post_init_precision false none
          ⟨"AUTO", "llama2-7b-chat", "full", 0, none, none, none⟩ = .error e :=
  select_dtype_fp16_full false none ⟨"AUTO", "llama2-7b-chat", "full", 0, none, none, none⟩
    (by decide) (Or.inr (by decide))

theorem getF_setF_self {V : Type} (a : InferArgsCk V) (k : CkptKey) (v : Option V) :
    getF (setF a k v) k = v := by
  cases k <;> rfl

theorem getF_setF_ne {V : Type} (a : InferArgsCk V) (k k2 : CkptKey) (v : Option V)
    (h : k ≠ k2) : getF (setF a k v) k2 = getF a k2 := by
  cases k <;> cases k2 <;> first | exact absurd rfl h | rfl

theorem getF_ckptStep_ne {V : Type} (f : CkptKey → Option V) (a : InferArgsCk V)
    (k k2 : CkptKey) (h : k ≠ k2) : getF (ckptStep f a k) k2 = getF a k2 := by
  unfold ckptStep
  split
  · rfl
  · exact getF_setF_ne a k k2 (f k) h

theorem getF_foldl_not_mem {V : Type} (f : CkptKey → Option V) (ks : List CkptKey)
    (a : InferArgsCk V) (k : CkptKey) (hk : k ∉ ks) :
    getF (ks.foldl (ckptStep f) a) k = getF a k := by
  induction ks generalizing a with
  | nil => rfl
  | cons x xs ih =>
    rw [List.foldl_cons]
    have hx : x ≠ k := fun hcon => hk (hcon ▸ List.mem_cons_self x xs)
    rw [ih (ckptStep f a x) (fun hm => hk (List.mem_cons_of_mem x hm)),
      getF_ckptStep_ne f a x k hx]

theorem getF_foldl_mem {V : Type} (f : CkptKey → Option V) (ks : List CkptKey)
    (hnd : ks.Nodup) (a : InferArgsCk V) (k : CkptKey) (hk : k ∈ ks) :
    getF (ks.foldl (ckptStep f) a) k
      = if k ∈ protected_keys ∧ getF a k ≠ none then getF a k else f k := by
  induction ks generalizing a with
  | nil => cases hk
  | cons x xs ih =>
    rw [List.foldl_cons]
    obtain ⟨hxnot, hxsnd⟩ := List.nodup_cons.mp hnd
    rcases List.mem_cons.mp hk with h | h
    · subst h
      rw [getF_foldl_not_mem f xs (ckptStep f a k) k hxnot]
      unfold ckptStep
      split
      · rfl
      · exact getF_setF_self a k (f k)
    · have hxk : x ≠ k := fun hcon => hxnot (hcon ▸ h)
      rw [ih hxsnd (ckptStep f a x) h, getF_ckptStep_ne f a x k hxk]

theorem imported_keys_nodup (b : Bool) : (imported_keys b).Nodup := by
  cases b <;> decide

/-- C9: when `ckpt_dir` contains no `sft_args.json`, `load_from_ckpt_dir`
raises no error and leaves every field of the configuration unchanged (it
logs and returns before touching any field). -/
theorem load_from_ckpt_dir_missing_snapshot {V : Type} (args : InferArgsCk V) :
    load_from_ckpt_dir (none : Option (CkptKey → Option V)) args = args := rfl

/-- C10 (implicit): when the snapshot file exists but does not define a
non-protected allow-listed key, the loop still runs
`setattr(args, key, sft_args.get(key))` and writes `None`, replacing any
user-supplied value for that field (e.g. `dtype` or `sft_type`). -/
theorem load_from_ckpt_dir_clobbers_missing_key {V : Type} (f : CkptKey → Option V)
    (args : InferArgsCk V) (k : CkptKey) (hk : k ∈ imported_keys args.eval_human)
    (hp : k ∉ protected_keys) (hf : f k = none) :
    getF (load_from_ckpt_dir (some f) args) k = none := by
  unfold load_from_ckpt_dir
  rw [getF_foldl_mem f _ (imported_keys_nodup args.eval_human) args k hk,
    if_neg (fun hcon => hp hcon.1), hf]

theorem load_from_ckpt_dir_clobbers_missing_key_witness :
    getF (load_from_ckpt_dir (some (fun _ => (none : Option String)))
        ⟨none, none, none, none, none, none, some "bf16", none, none, none, none, none,
         none, none, none, none, none, none, false⟩) .dtype = none :=
  load_from_ckpt_dir_clobbers_missing_key (fun _ => (none : Option String))
    ⟨none, none, none, none, none, none, some "bf16", none, none, none, none, none,
     none, none, none, none, none, none, false⟩ .dtype
    (by decide) (by decide) rfl

/-- C4: precedence of the Checkpoint-Argument Inheritor: (1) each of the
protected fields (`model_cache_dir`, `dataset`, `custom_train_dataset_path`,
`custom_val_dataset_path`) keeps its current value whenever that value is
non-`None`; (2) every other allow-listed field is overwritten by the
snapshot's value whenever the snapshot defines it; (3) when `eval_human` is
true the dataset-related fields are not inherited at all. -/
theorem load_from_ckpt_dir_precedence {V : Type} (f : CkptKey → Option V)
    (args : InferArgsCk V) :
    (∀ k, k ∈ protected_keys → getF args k ≠ none →
      getF (load_from_ckpt_dir (some f) args) k = getF args k) ∧
    (∀ k v, k ∈ imported_keys args.eval_human → k ∉ protected_keys → f k = some v →
      getF (load_from_ckpt_dir (some f) args) k = some v) ∧
    (args.eval_human = true → ∀ k, k ∈ dataset_related_keys →
      getF (load_from_ckpt_dir (some f) args) k = getF args k) := by
  refine ⟨?_, ?_, ?_⟩
  · intro k hkp hne
    unfold load_from_ckpt_dir
    by_cases hmem : k ∈ imported_keys args.eval_human
    · rw [getF_foldl_mem f _ (imported_keys_nodup args.eval_human) args k hmem,
        if_pos ⟨hkp, hne⟩]
    · exact getF_foldl_not_mem f _ args k hmem
  · intro k v hk hp hf
    unfold load_from_ckpt_dir
    rw [getF_foldl_mem f _ (imported_keys_nodup args.eval_human) args k hk,
      if_neg (fun hcon => hp hcon.1), hf]
  · intro hev k hk
    unfold load_from_ckpt_dir
    refine getF_foldl_not_mem f _ args k ?_
    rw [hev]
    simp only [dataset_related_keys, List.mem_cons] at hk
    rcases hk with rfl | rfl | rfl | rfl | rfl | rfl | hk
    · decide
    · decide
    · decide
    · decide
    · decide
    · decide
    · cases hk

theorem load_from_ckpt_dir_precedence_witness :
    (getF (load_from_ckpt_dir (some (fun _ => some "snap"))
        ⟨none, none, none, some "user-cache", none, none, some "user-dtype", none, none,
         none, none, none, none, none, none, none, none, none, false⟩) .model_cache_dir
      = getF (⟨none, none, none, some "user-cache", none, none, some "user-dtype", none, none,
         none, none, none, none, none, none, none, none, none, false⟩ : InferArgsCk String)
        .model_cache_dir) ∧
    getF (load_from_ckpt_dir (some (fun _ => some "snap"))
        ⟨none, none, none, some "user-cache", none, none, some "user-dtype", none, none,
         none, none, none, none, none, none, none, none, none, false⟩) .dtype
      = some "snap" :=
  ⟨(load_from_ckpt_dir_precedence (fun _ => some "snap")
      ⟨none, none, none, some "user-cache", none, none, some "user-dtype", none, none,
       none, none, none, none, none, none, none, none, none, false⟩).1
    .model_cache_dir (by decide) (by decide),
   (load_from_ckpt_dir_precedence (fun _ => some "snap")
      ⟨none, none, none, some "user-cache", none, none, some "user-dtype", none, none,
       none, none, none, none, none, none, none, none, none, false⟩).2.1
    .dtype "snap" (by decide) (by decide) rfl⟩

theorem splitCommaChars_ne_nil : ∀ l : List Char, splitCommaChars l ≠ [] := by
  intro l
  induction l with
  | nil => simp [splitCommaChars]
  | cons c rest ih =>
    unfold splitCommaChars
    split
    · simp
    · split
      · simp
      · simp

theorem splitCommaChars_length (l : List Char) (h : l.contains ',' = true) :
    2 ≤ (splitCommaChars l).length := by
  induction l with
  | nil => simp [List.contains] at h
  | cons c rest ih =>
    unfold splitCommaChars
    by_cases hc : c = ','
    · rw [if_pos hc]
      have := splitCommaChars_ne_nil rest
      have : 1 ≤ (splitCommaChars rest).length := by
        cases hrest : splitCommaChars rest with
        | nil => exact absurd hrest (splitCommaChars_ne_nil rest)
        | cons a t => simp
      simp only [List.length_cons]
      omega
    · rw [if_neg hc]
      have hrest : rest.contains ',' = true := by
        have hm : ',' ∈ c :: rest := by simpa using h
        rcases List.mem_cons.mp hm with h1 | h1
        · exact absurd h1.symm hc
        · simpa using h1
      have h2 := ih hrest
      cases hsc : splitCommaChars rest with
      | nil => exact absurd hsc (splitCommaChars_ne_nil rest)
      | cons a t =>
        rw [hsc] at h2
        simp only [List.length_cons] at h2 ⊢
        omega

theorem splitComma_length (s : String) (h : s.data.contains ',' = true) :
    2 ≤ (splitComma s).length := by
  unfold splitComma
  rw [List.length_map]
  exact splitCommaChars_length s.data h

theorem hcDataset_shape (a : NormArgs) : ∃ ds, hcDataset a = { a with dataset := ds } := by
  unfold hcDataset
  split
  · split
    · exact ⟨_, rfl⟩
    · exact ⟨a.dataset, rfl⟩
  · exact ⟨a.dataset, rfl⟩

theorem hcTemplateGlm_shape (a : NormArgs) :
    ∃ t, hcTemplateGlm a = { a with template_type := t } := by
  unfold hcTemplateGlm
  split
  · exact ⟨_, rfl⟩
  · exact ⟨a.template_type, rfl⟩

theorem hcTemplateQwen_shape (a : NormArgs) :
    ∃ t, hcTemplateQwen a = { a with template_type := t } := by
  unfold hcTemplateQwen
  split
  · exact ⟨_, rfl⟩
  · exact ⟨a.template_type, rfl⟩

theorem hcTemplate_shape (a : NormArgs) :
    ∃ t, hcTemplate a = { a with template_type := t } := by
  unfold hcTemplate
  obtain ⟨t1, h1⟩ := hcTemplateGlm_shape a
  rw [h1]
  obtain ⟨t2, h2⟩ := hcTemplateQwen_shape { a with template_type := t1 }
  rw [h2]
  exact ⟨t2, rfl⟩

theorem hcLora_shape (a : NormArgs) :
    ∃ l, hcLora a = { a with lora_target_modules := l } := by
  unfold hcLora
  split
  · split
    · split
      · exact ⟨_, rfl⟩
      · exact ⟨a.lora_target_modules, rfl⟩
    · exact ⟨a.lora_target_modules, rfl⟩
  · exact ⟨a.lora_target_modules, rfl⟩

theorem hcSample_shape (a : NormArgs) :
    ∃ v, hcSample a = { a with val_dataset_sample := v } := by
  unfold hcSample
  split
  · exact ⟨_, rfl⟩
  · exact ⟨a.val_dataset_sample, rfl⟩

theorem hcDataset_stable (a : NormArgs) (d : String)
    (h : (hcDataset a).dataset = some [d]) : d.data.contains ',' = false := by
  unfold hcDataset at h
  split at h
  · next d0 heq =>
    split at h
    · next hcomma =>
      exfalso
      have hsp : splitComma d0 = [d] := by
        have h2 := h
        simp only at h2
        exact Option.some.inj h2
      have hlen := splitComma_length d0 hcomma
      rw [hsp] at hlen
      simp at hlen
    · next hcomma =>
      rw [heq] at h
      have hd : d0 = d := by
        have h2 : [d0] = [d] := Option.some.inj h
        simpa using h2
      subst hd
      simpa using hcomma
  · next hne =>
    exfalso
    exact hne d h

theorem hcTemplateGlm_stable (a : NormArgs) :
    (hcTemplateGlm a).template_type ≠ "chatglm2-generation" := by
  unfold hcTemplateGlm
  split
  · simp
  · next h => exact h

theorem hcTemplate_stable (a : NormArgs) :
    (hcTemplate a).template_type ≠ "chatglm2-generation" ∧
    (hcTemplate a).template_type ≠ "qwen" := by
  unfold hcTemplate hcTemplateQwen
  split
  · constructor
    · simp [templateTypeChatml]
    · simp [templateTypeChatml]
  · next h =>
    exact ⟨hcTemplateGlm_stable a, h⟩

theorem hcLora_stable (a : NormArgs) (hs : a.isSft = true) (l : List String)
    (hl : (hcLora a).lora_target_modules = some l) :
    ¬ ("AUTO" ∈ l ∧ l.length = 1) := by
  unfold hcLora at hl
  rw [if_pos hs] at hl
  split at hl
  · next l0 heq =>
    split at hl
    · intro hcon
      have hld : l = ["DEFAULT"] := by
        have := hl
        simp only at this
        exact (Option.some.inj this).symm
      subst hld
      exact absurd hcon (by decide)
    · next hcond =>
      have hll : l = l0 := by
        have := hl
        simp only at this
        rw [heq] at this
        exact (Option.some.inj this).symm
      subst hll
      exact hcond
  · next heq =>
    rw [heq] at hl
    exact absurd hl (by simp)

theorem hcSample_stable (a : NormArgs) :
    ¬ (¬ (hcSample a).isSft = true ∧ (hcSample a).show_dataset_sample ≠ 10 ∧
        (hcSample a).val_dataset_sample = 10) := by
  unfold hcSample
  split
  · next hcond =>
    intro hcon
    simp only at hcon
    exact hcon.2.1 hcon.2.2
  · next hcond =>
    exact hcond

theorem hcDataset_of_stable (x : NormArgs)
    (h : ∀ d, x.dataset = some [d] → d.data.contains ',' = false) :
    hcDataset x = x := by
  unfold hcDataset
  split
  · next d0 heq =>
    rw [if_neg]
    rw [h d0 heq]
    simp
  · rfl

theorem hcTemplate_of_stable (x : NormArgs)
    (h1 : x.template_type ≠ "chatglm2-generation") (h2 : x.template_type ≠ "qwen") :
    hcTemplate x = x := by
  unfold hcTemplate hcTemplateGlm hcTemplateQwen
  rw [if_neg h1, if_neg h2]

theorem hcLora_of_stable (x : NormArgs)
    (h : x.isSft = true → ∀ l, x.lora_target_modules = some l →
      ¬ ("AUTO" ∈ l ∧ l.length = 1)) :
    hcLora x = x := by
  unfold hcLora
  split
  · next hs =>
    split
    · next l heq =>
      rw [if_neg (h hs l heq)]
    · rfl
  · rfl

theorem hcSample_of_stable (x : NormArgs)
    (h : ¬ (¬ x.isSft = true ∧ x.show_dataset_sample ≠ 10 ∧ x.val_dataset_sample = 10)) :
    hcSample x = x := by
  unfold hcSample
  rw [if_neg h]

theorem handle_compatibility_of_stable (x : NormArgs)
    (hd : ∀ d, x.dataset = some [d] → d.data.contains ',' = false)
    (ht1 : x.template_type ≠ "chatglm2-generation") (ht2 : x.template_type ≠ "qwen")
    (hl : x.isSft = true → ∀ l, x.lora_target_modules = some l →
      ¬ ("AUTO" ∈ l ∧ l.length = 1))
    (hv : ¬ (¬ x.isSft = true ∧ x.show_dataset_sample ≠ 10 ∧ x.val_dataset_sample = 10)) :
    handle_compatibility x = x := by
  unfold handle_compatibility
  rw [hcDataset_of_stable x hd, hcTemplate_of_stable x ht1 ht2,
    hcLora_of_stable x hl, hcSample_of_stable x hv]

theorem handle_compatibility_stable_post (a : NormArgs) :
    (∀ d, (handle_compatibility a).dataset = some [d] → d.data.contains ',' = false) ∧
    ((handle_compatibility a).template_type ≠ "chatglm2-generation" ∧
     (handle_compatibility a).template_type ≠ "qwen") ∧
    ((handle_compatibility a).isSft = true → ∀ l,
      (handle_compatibility a).lora_target_modules = some l →
      ¬ ("AUTO" ∈ l ∧ l.length = 1)) ∧
    ¬ (¬ (handle_compatibility a).isSft = true ∧
       (handle_compatibility a).show_dataset_sample ≠ 10 ∧
       (handle_compatibility a).val_dataset_sample = 10) := by
  unfold handle_compatibility
  obtain ⟨t, ht⟩ := hcTemplate_shape (hcDataset a)
  obtain ⟨lv, hlv⟩ := hcLora_shape (hcTemplate (hcDataset a))
  obtain ⟨vv, hvv⟩ := hcSample_shape (hcLora (hcTemplate (hcDataset a)))
  refine ⟨?_, ⟨?_, ?_⟩, ?_, ?_⟩
  · intro d hd
    rw [hvv, hlv, ht] at hd
    exact hcDataset_stable a d (by simpa using hd)
  · have h := (hcTemplate_stable (hcDataset a)).1
    rw [hvv, hlv]
    simpa using h
  · have h := (hcTemplate_stable (hcDataset a)).2
    rw [hvv, hlv]
    simpa using h
  · intro hs l hl
    rw [hvv] at hs hl
    refine hcLora_stable (hcTemplate (hcDataset a)) ?_ l ?_
    · rw [hlv] at hs
      simpa using hs
    · simpa using hl
  · exact hcSample_stable (hcLora (hcTemplate (hcDataset a)))

theorem handle_compatibility_idem_post (a b : NormArgs)
    (hb1 : b.dataset = (handle_compatibility a).dataset)
    (hb2 : b.template_type = (handle_compatibility a).template_type)
    (hb3 : b.lora_target_modules = (handle_compatibility a).lora_target_modules)
    (hb4 : b.isSft = (handle_compatibility a).isSft)
    (hb5 : b.show_dataset_sample = (handle_compatibility a).show_dataset_sample)
    (hb6 : b.val_dataset_sample = (handle_compatibility a).val_dataset_sample) :
    handle_compatibility b = b := by
  obtain ⟨hd, ⟨ht1, ht2⟩, hl, hv⟩ := handle_compatibility_stable_post a
  refine handle_compatibility_of_stable b ?_ ?_ ?_ ?_ ?_
  · intro d hdd
    refine hd d ?_
    rw [← hb1]
    exact hdd
  · rw [hb2]
    exact ht1
  · rw [hb2]
    exact ht2
  · intro hs l hll
    refine hl ?_ l ?_
    · rw [← hb4]
      exact hs
    · rw [← hb3]
      exact hll
  · rw [hb4, hb5, hb6]
    exact hv

theorem checkPathStr_inv (expanduser abspath : String → String) (pathExists : String → Bool)
    (check : Bool) (k v w : String)
    (h : checkPathStr expanduser abspath pathExists check k v = .ok w) :
    w = abspath (expanduser v) ∧
    ¬ (check = true ∧ ¬ pathExists (abspath (expanduser v)) = true) := by
  unfold checkPathStr at h
  split at h
  · exact Except.noConfusion h
  · next hcond => exact ⟨(Except.ok.inj h).symm, hcond⟩

theorem checkPathStr_idem (expanduser abspath : String → String) (pathExists : String → Bool)
    (hconv : ∀ s, abspath (expanduser (abspath (expanduser s))) = abspath (expanduser s))
    (check : Bool) (k v w : String)
    (h : checkPathStr expanduser abspath pathExists check k v = .ok w) :
    checkPathStr expanduser abspath pathExists check k w = .ok w := by
  obtain ⟨hw, hcond⟩ := checkPathStr_inv expanduser abspath pathExists check k v w h
  subst hw
  unfold checkPathStr
  rw [hconv v, if_neg hcond]

theorem checkPathList_idem (expanduser abspath : String → String) (pathExists : String → Bool)
    (hconv : ∀ s, abspath (expanduser (abspath (expanduser s))) = abspath (expanduser s))
    (check : Bool) (k : String) :
    ∀ vs ws, checkPathList expanduser abspath pathExists check k vs = .ok ws →
      checkPathList expanduser abspath pathExists check k ws = .ok ws := by
  intro vs
  induction vs with
  | nil =>
    intro ws h
    have hw : ws = [] := (Except.ok.inj h).symm
    subst hw
    rfl
  | cons v rest ih =>
    intro ws h
    unfold checkPathList at h
    split at h
    · exact Except.noConfusion h
    · next v2 heq1 =>
      split at h
      · exact Except.noConfusion h
      · next rest2 heq2 =>
        have hw : ws = v2 :: rest2 := (Except.ok.inj h).symm
        subst hw
        unfold checkPathList
        rw [checkPathStr_idem expanduser abspath pathExists hconv check k v v2 heq1,
          ih rest2 heq2]

theorem procOptStr_idem (expanduser abspath : String → String) (pathExists : String → Bool)
    (hconv : ∀ s, abspath (expanduser (abspath (expanduser s))) = abspath (expanduser s))
    (check : Bool) (k : String) (o o2 : Option String)
    (h : procOptStr expanduser abspath pathExists check k o = .ok o2) :
    procOptStr expanduser abspath pathExists check k o2 = .ok o2 := by
  cases o with
  | none =>
    have : o2 = none := (Except.ok.inj h).symm
    subst this
    rfl
  | some v =>
    unfold procOptStr at h
    dsimp only at h
    cases hcv : checkPathStr expanduser abspath pathExists check k v with
    | error e => rw [hcv] at h; exact Except.noConfusion h
    | ok w =>
      rw [hcv] at h
      have : o2 = some w := (Except.ok.inj h).symm
      subst this
      unfold procOptStr
      dsimp only
      rw [checkPathStr_idem expanduser abspath pathExists hconv check k v w hcv]
      rfl

theorem procOptList_idem (expanduser abspath : String → String) (pathExists : String → Bool)
    (hconv : ∀ s, abspath (expanduser (abspath (expanduser s))) = abspath (expanduser s))
    (check : Bool) (k : String) (o o2 : Option (List String))
    (h : procOptList expanduser abspath pathExists check k o = .ok o2) :
    procOptList expanduser abspath pathExists check k o2 = .ok o2 := by
  cases o with
  | none =>
    have : o2 = none := (Except.ok.inj h).symm
    subst this
    rfl
  | some v =>
    unfold procOptList at h
    dsimp only at h
    cases hcv : checkPathList expanduser abspath pathExists check k v with
    | error e => rw [hcv] at h; exact Except.noConfusion h
    | ok w =>
      rw [hcv] at h
      have : o2 = some w := (Except.ok.inj h).symm
      subst this
      unfold procOptList
      dsimp only
      rw [checkPathList_idem expanduser abspath pathExists hconv check k v w hcv]
      rfl

theorem handle_path_inv (expanduser abspath : String → String) (pathExists : String → Bool)
    (x b : NormArgs) (h : handle_path expanduser abspath pathExists x = .ok b) :
    ∃ mcd cd rfc dcp ctdp cvdp mip od ld,
      procOptStr expanduser abspath pathExists true "model_cache_dir" x.model_cache_dir
        = .ok mcd ∧
      procOptStr expanduser abspath pathExists true "ckpt_dir" x.ckpt_dir = .ok cd ∧
      procOptStr expanduser abspath pathExists true "resume_from_checkpoint"
        x.resume_from_checkpoint = .ok rfc ∧
      procOptStr expanduser abspath pathExists true "deepspeed_config_path"
        x.deepspeed_config_path = .ok dcp ∧
      procOptList expanduser abspath pathExists true "custom_train_dataset_path"
        x.custom_train_dataset_path = .ok ctdp ∧
      procOptList expanduser abspath pathExists true "custom_val_dataset_path"
        x.custom_val_dataset_path = .ok cvdp ∧
      (if modelIdIsPath x.model_id_or_path then
        procOptStr expanduser abspath pathExists true "model_id_or_path" x.model_id_or_path
       else .ok x.model_id_or_path) = .ok mip ∧
      procOptStr expanduser abspath pathExists false "output_dir" x.output_dir = .ok od ∧
      procOptStr expanduser abspath pathExists false "logging_dir" x.logging_dir = .ok ld ∧
      b = { x with
        model_cache_dir := mcd, ckpt_dir := cd, resume_from_checkpoint := rfc,
        deepspeed_config_path := dcp, custom_train_dataset_path := ctdp,
        custom_val_dataset_path := cvdp, model_id_or_path := mip,
        output_dir := od, logging_dir := ld } := by
  unfold handle_path at h
  cases h1 : procOptStr expanduser abspath pathExists true "model_cache_dir"
      x.model_cache_dir with
  | error e => rw [h1] at h; exact Except.noConfusion h
  | ok mcd =>
  rw [h1] at h
  cases h2 : procOptStr expanduser abspath pathExists true "ckpt_dir" x.ckpt_dir with
  | error e => rw [h2] at h; exact Except.noConfusion h
  | ok cd =>
  rw [h2] at h
  cases h3 : procOptStr expanduser abspath pathExists true "resume_from_checkpoint"
      x.resume_from_checkpoint with
  | error e => rw [h3] at h; exact Except.noConfusion h
  | ok rfc =>
  rw [h3] at h
  cases h4 : procOptStr expanduser abspath pathExists true "deepspeed_config_path"
      x.deepspeed_config_path with
  | error e => rw [h4] at h; exact Except.noConfusion h
  | ok dcp =>
  rw [h4] at h
  cases h5 : procOptList expanduser abspath pathExists true "custom_train_dataset_path"
      x.custom_train_dataset_path with
  | error e => rw [h5] at h; exact Except.noConfusion h
  | ok ctdp =>
  rw [h5] at h
  cases h6 : procOptList expanduser abspath pathExists true "custom_val_dataset_path"
      x.custom_val_dataset_path with
  | error e => rw [h6] at h; exact Except.noConfusion h
  | ok cvdp =>
  rw [h6] at h
  cases h7 : (if modelIdIsPath x.model_id_or_path then
      procOptStr expanduser abspath pathExists true "model_id_or_path" x.model_id_or_path
    else .ok x.model_id_or_path) with
  | error e => rw [h7] at h; exact Except.noConfusion h
  | ok mip =>
  rw [h7] at h
  cases h8 : procOptStr expanduser abspath pathExists false "output_dir" x.output_dir with
  | error e => rw [h8] at h; exact Except.noConfusion h
  | ok od =>
  rw [h8] at h
  cases h9 : procOptStr expanduser abspath pathExists false "logging_dir" x.logging_dir with
  | error e => rw [h9] at h; exact Except.noConfusion h
  | ok ld =>
  rw [h9] at h
  exact ⟨mcd, cd, rfc, dcp, ctdp, cvdp, mip, od, ld,
    rfl, rfl, rfl, rfl, rfl, rfl, rfl, rfl, rfl, (Except.ok.inj h).symm⟩

theorem handle_path_idem (expanduser abspath : String → String) (pathExists : String → Bool)
    (hconv : ∀ s, abspath (expanduser (abspath (expanduser s))) = abspath (expanduser s))
    (habs : ∀ s, pyStartsWith (abspath (expanduser s)) '/' = true)
    (x b : NormArgs) (h : handle_path expanduser abspath pathExists x = .ok b) :
    handle_path expanduser abspath pathExists b = .ok b := by
  obtain ⟨mcd, cd, rfc, dcp, ctdp, cvdp, mip, od, ld,
    h1, h2, h3, h4, h5, h6, h7, h8, h9, hb⟩ :=
    handle_path_inv expanduser abspath pathExists x b h
  subst hb
  unfold handle_path
  dsimp only
  rw [procOptStr_idem expanduser abspath pathExists hconv true "model_cache_dir" _ _ h1]
  dsimp only
  rw [procOptStr_idem expanduser abspath pathExists hconv true "ckpt_dir" _ _ h2]
  dsimp only
  rw [procOptStr_idem expanduser abspath pathExists hconv true "resume_from_checkpoint" _ _ h3]
  dsimp only
  rw [procOptStr_idem expanduser abspath pathExists hconv true "deepspeed_config_path" _ _ h4]
  dsimp only
  rw [procOptList_idem expanduser abspath pathExists hconv true "custom_train_dataset_path" _ _ h5]
  dsimp only
  rw [procOptList_idem expanduser abspath pathExists hconv true "custom_val_dataset_path" _ _ h6]
  dsimp only
  have h7b : (if modelIdIsPath mip then
      procOptStr expanduser abspath pathExists true "model_id_or_path" mip
    else .ok mip) = Except.ok mip := by
    by_cases hmid : modelIdIsPath x.model_id_or_path = true
    · rw [if_pos hmid] at h7
      cases hx : x.model_id_or_path with
      | none => rw [hx] at hmid; exact Bool.noConfusion hmid
      | some v =>
        rw [hx] at h7
        unfold procOptStr at h7
        dsimp only at h7
        cases hcv : checkPathStr expanduser abspath pathExists true "model_id_or_path" v with
        | error e => rw [hcv] at h7; exact Except.noConfusion h7
        | ok w =>
          rw [hcv] at h7
          have hmip : mip = some w := by
            have h7i := h7
            simp only [Except.map] at h7i
            exact (Except.ok.inj h7i).symm
          subst hmip
          obtain hw := (checkPathStr_inv expanduser abspath pathExists true
            "model_id_or_path" v w hcv).1
          subst hw
          have hmid2 : modelIdIsPath (some (abspath (expanduser v))) = true := by
            unfold modelIdIsPath
            dsimp only
            rw [habs v, Bool.or_true]
          rw [if_pos hmid2]
          unfold procOptStr
          dsimp only
          rw [checkPathStr_idem expanduser abspath pathExists hconv true
            "model_id_or_path" v _ hcv]
          rfl
    · rw [if_neg hmid] at h7
      have hmip : mip = x.model_id_or_path := (Except.ok.inj h7).symm
      subst hmip
      rw [if_neg hmid]
  rw [h7b]
  dsimp only
  rw [procOptStr_idem expanduser abspath pathExists hconv false "output_dir" _ _ h8]
  dsimp only
  rw [procOptStr_idem expanduser abspath pathExists hconv false "logging_dir" _ _ h9]

/-- C8: Path & Compatibility Normalizer idempotence.  For every
configuration, running `handle_compatibility` followed by `handle_path`
twice gives the same configuration as running them once: on an
already-normalized configuration the alias rewrites, the comma-joined
dataset-string expansion, and the path normalizations are all no-ops and the
existence checks pass again.  Stated under the facts the OS guarantees for
the path primitives: `abspath ∘ expanduser` is idempotent and produces
absolute paths (they begin with `/`). -/
theorem normalizeArgs_idem (expanduser abspath : String → String)
    (pathExists : String → Bool)
    (hconv : ∀ s, abspath (expanduser (abspath (expanduser s))) = abspath (expanduser s))
    (habs : ∀ s, pyStartsWith (abspath (expanduser s)) '/' = true)
    (a b : NormArgs) (h : normalizeArgs expanduser abspath pathExists a = .ok b) :
    normalizeArgs expanduser abspath pathExists b = .ok b := by
  unfold normalizeArgs at h ⊢
  have hcb : handle_compatibility b = b := by
    obtain ⟨mcd, cd, rfc, dcp, ctdp, cvdp, mip, od, ld,
      h1, h2, h3, h4, h5, h6, h7, h8, h9, hb⟩ :=
      handle_path_inv expanduser abspath pathExists (handle_compatibility a) b h
    subst hb
    exact handle_compatibility_idem_post a _ rfl rfl rfl rfl rfl rfl
  rw [hcb]
  exact handle_path_idem expanduser abspath pathExists hconv habs
    (handle_compatibility a) b h

theorem normalizeArgs_idem_witness :
    normalizeArgs id (fun _ => "/x") (fun _ => true)
        ⟨false, some ["x", "y"], "chatml", none, 3, 3, some "/x", some "/x",
         none, none, none, none, none, none, none⟩
      = .ok ⟨false, some ["x", "y"], "chatml", none, 3, 3, some "/x", some "/x",
         none, none, none, none, none, none, none⟩ :=
  normalizeArgs_idem id (fun _ => "/x") (fun _ => true) (fun _ => rfl) (fun _ => rfl)
    ⟨false, some ["x,y"], "qwen", none, 3, 10, some "/p", some "c",
     none, none, none, none, none, none, none⟩
    ⟨false, some ["x", "y"], "chatml", none, 3, 3, some "/x", some "/x",
     none, none, none, none, none, none, none⟩ rfl

end Swift
